import Mathlib

/-!
Verification of the motion-control and realtime-protocol core of grblHAL
(`src/GRBL/motion_control.c` and the protocol unit appended to it).

The C code is shallowly embedded.  Float values are modelled by the elements
of a linear ordered field `F` (instantiated at `ℚ` for executable checks and
at `ℝ` where the transcendental library functions `atan2f`, `sqrtf`, `cosf`,
`sinf`, `powf` matter; those library functions, which are external to the
repository, appear as explicit parameters of the embedding, instantiated with
the exact real functions for the numerical results).

Two observations justify the shape of the state threading:
* `sys.abort` is only ever set by `protocol_execute_realtime`; we model one
  call with the abort flag held constant for the duration of the call, i.e.
  `protocol_execute_realtime()` returns `!abort`.  The planner-full
  backpressure loops (`while(plan_check_full_buffer()) ...`) only invoke
  `protocol_auto_cycle_start` and the realtime check, so in the constant-abort
  model they leave no observable trace and are elided.
* side effects towards the planner / HAL are recorded as explicit event
  traces; `LineEvent.push` records one invocation of `plan_buffer_line`.
-/

namespace Grbl

/-- Axis-indexed vector of "float" values; `N_AXIS = 3` (X, Y, Z). -/
abbrev Vec (F : Type) := Fin 3 → F

/-- spindle part of the planner condition flags. -/
structure SpindleCond where
  on_ : Bool
  ccw : Bool
  synchronized : Bool
deriving DecidableEq

/-- condition flags of `plan_line_data_t`. -/
structure PlanCond where
  rapid_motion : Bool
  backlash_motion : Bool
  jog_motion : Bool
  inverse_time : Bool
  spindle : SpindleCond
deriving DecidableEq

/-- the parts of `plan_line_data_t` used by `motion_control.c`. -/
structure PlanData (F : Type) where
  condition : PlanCond
  feed_rate : F
  spindle_rpm : F
  line_number : ℤ
  feed_hold_disable : Bool
deriving DecidableEq

/-- observable effects of one `mc_line` call: the soft-limit check
(`limits_soft_check`), invocations of `plan_buffer_line`, and the laser-mode
`hal.spindle_set_state` coalesce. -/
inductive LineEvent (F : Type) where
  | softCheck (target : Vec F)
  | push (target : Vec F) (pl : PlanData F)
  | spindleSet (spindle : SpindleCond) (rpm : F)

/-- state visible to `mc_line`: system mode and abort flag, the relevant
settings, the backlash tracker state (`target_prev`, `dir_negative`,
`backlash_enabled`), and the planner's accept behaviour. -/
structure LineWorld (F : Type) where
  checkMode : Bool
  abort : Bool
  softEnabled : Bool
  laserMode : Bool
  backlash : Vec F
  backlashEnabled : Fin 3 → Bool
  dirNegative : Fin 3 → Bool
  targetPrev : Vec F
  planAccept : Vec F → Bool

/-- intermediate state of the per-axis backlash scan of `mc_line`
(source lines 97-113). -/
structure BlScan (F : Type) where
  targetPrev : Vec F
  dirNegative : Fin 3 → Bool
  comp : Bool

/-- one axis of the backlash scan (`mc_line`, lines 99-111). -/
def backlashAxisStep [LinearOrderedField F] (w : LineWorld F) (target : Vec F)
    (s : BlScan F) (i : Fin 3) : BlScan F :=
  if w.backlashEnabled i then
    if s.targetPrev i < target i then
      if s.dirNegative i then
        { targetPrev := Function.update s.targetPrev i (s.targetPrev i + w.backlash i),
          dirNegative := Function.update s.dirNegative i false,
          comp := true }
      else s
    else if target i < s.targetPrev i ∧ s.dirNegative i = false then
      { targetPrev := Function.update s.targetPrev i (s.targetPrev i - w.backlash i),
        dirNegative := Function.update s.dirNegative i true,
        comp := true }
    else s
  else s

/-- the backlash scan over all axes; the source `do { idx-- ... } while(idx)`
loop visits the axes in the order 2, 1, 0. -/
def backlashScan [LinearOrderedField F] (w : LineWorld F) (target : Vec F) : BlScan F :=
  ([2, 1, 0] : List (Fin 3)).foldl (backlashAxisStep w target)
    ⟨w.targetPrev, w.dirNegative, false⟩

/-- the synthesized backlash plan data (`mc_line`, lines 117-124): zeroed by
`memset`, then `rapid_motion`/`backlash_motion` set with the caller's line
number and spindle rpm. -/
def backlashPlan [LinearOrderedField F] (pl : PlanData F) : PlanData F :=
  { condition := { rapid_motion := true, backlash_motion := true, jog_motion := false,
                   inverse_time := false, spindle := ⟨false, false, false⟩ },
    feed_rate := 0,
    spindle_rpm := pl.spindle_rpm,
    line_number := pl.line_number,
    feed_hold_disable := false }

/-- `mc_line` (source lines 64-160, with `ENABLE_BACKLASH_COMPENSATION`):
returns the updated world, the event trace, and the `!ABORTED` result. -/
def mc_line [LinearOrderedField F] (w : LineWorld F) (target : Vec F) (pl : PlanData F) :
    LineWorld F × List (LineEvent F) × Bool :=
  let ev0 : List (LineEvent F) :=
    if pl.condition.jog_motion = false ∧ w.softEnabled = true then [.softCheck target] else []
  if w.checkMode = false ∧ w.abort = false then
    let bw :=
      if (List.finRange 3).any w.backlashEnabled then
        let s := backlashScan w target
        (({ w with targetPrev := target, dirNegative := s.dirNegative } : LineWorld F),
         if s.comp then [LineEvent.push s.targetPrev (backlashPlan pl)] else [])
      else (w, ([] : List (LineEvent F)))
    let evS : List (LineEvent F) :=
      if w.planAccept target = false ∧ w.laserMode = true ∧ pl.condition.spindle.on_ = true ∧
          pl.condition.spindle.ccw = false
      then [.spindleSet pl.condition.spindle pl.spindle_rpm] else []
    (bw.1, ev0 ++ bw.2 ++ [LineEvent.push target pl] ++ evS, true)
  else
    (w, ev0, !w.abort)

/-- recognizer for a planner push flagged as backlash compensation. -/
def isBlPush {F : Type} : LineEvent F → Bool
  | .push _ q => q.condition.backlash_motion
  | _ => false

/-- trace shape of a non-CHECK, non-aborted `mc_line` call. -/
lemma mc_line_run_trace [LinearOrderedField F] (w : LineWorld F) (target : Vec F)
    (pl : PlanData F) (hc : w.checkMode = false) (ha : w.abort = false) :
    (mc_line w target pl).2.1 =
      (if pl.condition.jog_motion = false ∧ w.softEnabled = true
        then [LineEvent.softCheck target] else [])
      ++ (if (List.finRange 3).any w.backlashEnabled = true ∧ (backlashScan w target).comp = true
          then [LineEvent.push (backlashScan w target).targetPrev (backlashPlan pl)] else [])
      ++ [LineEvent.push target pl]
      ++ (if w.planAccept target = false ∧ w.laserMode = true ∧
            pl.condition.spindle.on_ = true ∧ pl.condition.spindle.ccw = false
          then [LineEvent.spindleSet pl.condition.spindle pl.spindle_rpm] else []) := by
  unfold mc_line
  simp only [hc, ha, and_self, if_true]
  by_cases hb : (List.finRange 3).any w.backlashEnabled = true
  · by_cases hcomp : (backlashScan w target).comp = true
    · simp [hb, hcomp]
    · simp [hb, hcomp]
  · simp [hb]

/-- trace shape of a CHECK-mode or aborted `mc_line` call. -/
lemma mc_line_skip_trace [LinearOrderedField F] (w : LineWorld F) (target : Vec F)
    (pl : PlanData F) (h : ¬(w.checkMode = false ∧ w.abort = false)) :
    (mc_line w target pl).2.1 =
      (if pl.condition.jog_motion = false ∧ w.softEnabled = true
        then [LineEvent.softCheck target] else []) ∧
    (mc_line w target pl).2.2 = !w.abort := by
  unfold mc_line
  simp only [if_neg h]
  refine ⟨?_, ?_⟩ <;> first | rfl | trivial

/-- a backlash move equal to the previous target on every axis leaves the
scan untouched. -/
lemma backlashScan_eq_self [LinearOrderedField F] (w : LineWorld F) (target : Vec F)
    (h : ∀ i, target i = w.targetPrev i) : (backlashScan w target).comp = false := by
  unfold backlashScan
  simp only [List.foldl, backlashAxisStep, h 0, h 1, h 2]
  simp

/-- C1: for every call to `mc_line` while the system state is `CHECK_MODE`,
no `plan_buffer_line` invocation takes place and the call returns success
(`!ABORTED`, hence `true` whenever the system has not aborted), regardless of
the target and the planner-data arguments. -/
theorem mc_line_check_mode_spec {F : Type} [LinearOrderedField F] (w : LineWorld F)
    (target : Vec F) (pl : PlanData F) (hc : w.checkMode = true) :
    (∀ t q, LineEvent.push t q ∉ (mc_line w target pl).2.1) ∧
    (w.abort = false → (mc_line w target pl).2.2 = true) := by
  have hcond : ¬(w.checkMode = false ∧ w.abort = false) := by simp [hc]
  obtain ⟨htr, hres⟩ := mc_line_skip_trace w target pl hcond
  refine ⟨?_, ?_⟩
  · intro t q hmem
    rw [htr] at hmem
    by_cases hs : pl.condition.jog_motion = false ∧ w.softEnabled = true
    · simp [hs] at hmem
    · simp [hs] at hmem
  · intro ha
    rw [hres, ha]
    rfl

/-- a sample planner-data record over `ℚ`. -/
def samplePl : PlanData ℚ :=
  { condition := { rapid_motion := false, backlash_motion := false, jog_motion := false,
                   inverse_time := false, spindle := ⟨false, false, false⟩ },
    feed_rate := 100, spindle_rpm := 300, line_number := 1, feed_hold_disable := false }

/-- a sample world over `ℚ` with a configurable mode flag. -/
def sampleWorld (chk : Bool) : LineWorld ℚ :=
  { checkMode := chk, abort := false, softEnabled := true, laserMode := false,
    backlash := fun _ => 1/10, backlashEnabled := fun _ => true,
    dirNegative := fun _ => true, targetPrev := fun _ => 0,
    planAccept := fun _ => true }

/-- witness: the CHECK-mode theorem evaluated at a concrete world and move. -/
theorem mc_line_check_mode_spec_witness :
    (∀ t q, LineEvent.push t q ∉ (mc_line (sampleWorld true) (fun _ => 5) samplePl).2.1) ∧
    ((sampleWorld true).abort = false →
      (mc_line (sampleWorld true) (fun _ => 5) samplePl).2.2 = true) :=
  mc_line_check_mode_spec (sampleWorld true) (fun _ => 5) samplePl rfl

/-- C2: for every `mc_line` call of a user move (a move not itself flagged as
backlash motion): at most one backlash-compensation push is emitted, every
backlash push carries both the `rapid_motion` and the `backlash_motion` flag,
in an executing (non-CHECK, non-aborted) call every backlash push sits
strictly before the push of the user's move, and a move equal to the previous
target on every axis emits no backlash push at all. -/
theorem mc_line_backlash_spec {F : Type} [LinearOrderedField F] (w : LineWorld F)
    (target : Vec F) (pl : PlanData F) (hbl : pl.condition.backlash_motion = false) :
    (((mc_line w target pl).2.1.filter isBlPush).length ≤ 1) ∧
    (∀ e ∈ (mc_line w target pl).2.1, isBlPush e = true →
      ∃ t q, e = LineEvent.push t q ∧ q.condition.rapid_motion = true ∧
        q.condition.backlash_motion = true) ∧
    (w.checkMode = false → w.abort = false →
      ∃ pre post, (mc_line w target pl).2.1 = pre ++ LineEvent.push target pl :: post ∧
        ∀ e ∈ post, isBlPush e = false) ∧
    ((∀ i, target i = w.targetPrev i) →
      ∀ e ∈ (mc_line w target pl).2.1, isBlPush e = false) := by
  by_cases hrun : w.checkMode = false ∧ w.abort = false
  · have htr := mc_line_run_trace w target pl hrun.1 hrun.2
    rw [htr]
    refine ⟨?_, ?_, ?_, ?_⟩
    · split_ifs <;> simp [isBlPush, backlashPlan, hbl]
    · intro e hmem he
      simp only [List.mem_append] at hmem
      rcases hmem with ((hm | hm) | hm) | hm
      · exfalso
        revert hm
        split
        · intro hm
          simp only [List.mem_singleton] at hm
          subst hm
          simp [isBlPush] at he
        · intro hm
          simp at hm
      · refine ⟨(backlashScan w target).targetPrev, backlashPlan pl, ?_, rfl, rfl⟩
        revert hm
        split <;> simp_all
      · exfalso
        simp only [List.mem_singleton] at hm
        subst hm
        simp [isBlPush, hbl] at he
      · exfalso
        revert hm
        split
        · intro hm
          simp only [List.mem_singleton] at hm
          subst hm
          simp [isBlPush] at he
        · intro hm
          simp at hm
    · intro _ _
      refine ⟨(if pl.condition.jog_motion = false ∧ w.softEnabled = true
            then [LineEvent.softCheck target] else []) ++
          (if (List.finRange 3).any w.backlashEnabled = true ∧
              (backlashScan w target).comp = true
            then [LineEvent.push (backlashScan w target).targetPrev (backlashPlan pl)]
            else []),
        (if w.planAccept target = false ∧ w.laserMode = true ∧
            pl.condition.spindle.on_ = true ∧ pl.condition.spindle.ccw = false
          then [LineEvent.spindleSet pl.condition.spindle pl.spindle_rpm] else []),
        by simp, ?_⟩
      intro e hm
      revert hm
      split <;> simp_all [isBlPush]
    · intro hsame e hmem
      have hcomp := backlashScan_eq_self w target hsame
      simp only [List.mem_append] at hmem
      rcases hmem with ((hm | hm) | hm) | hm
      · revert hm
        split <;> simp_all [isBlPush]
      · rw [hcomp] at hm
        simp at hm
      · simp only [List.mem_singleton] at hm
        subst hm
        simp [isBlPush, hbl]
      · revert hm
        split <;> simp_all [isBlPush]
  · have h := mc_line_skip_trace w target pl hrun
    rw [h.1]
    refine ⟨?_, ?_, ?_, ?_⟩
    · split <;> simp [isBlPush]
    · intro e hmem he
      exfalso
      revert hmem
      split
      · intro hm
        simp only [List.mem_singleton] at hm
        subst hm
        simp [isBlPush] at he
      · intro hm
        simp at hm
    · intro hc ha
      exact absurd ⟨hc, ha⟩ hrun
    · intro _ e hmem
      revert hmem
      split <;> simp_all [isBlPush]

/-- witness: the backlash theorem evaluated at a concrete reversing move. -/
theorem mc_line_backlash_spec_witness :
    samplePl.condition.backlash_motion = false ∧
    ((((mc_line (sampleWorld false) (fun _ => 5) samplePl).2.1.filter isBlPush).length ≤ 1) ∧
     (∀ e ∈ (mc_line (sampleWorld false) (fun _ => 5) samplePl).2.1, isBlPush e = true →
       ∃ t q, e = LineEvent.push t q ∧ q.condition.rapid_motion = true ∧
         q.condition.backlash_motion = true) ∧
     ((sampleWorld false).checkMode = false → (sampleWorld false).abort = false →
       ∃ pre post, (mc_line (sampleWorld false) (fun _ => 5) samplePl).2.1 =
           pre ++ LineEvent.push (fun _ => 5) samplePl :: post ∧
         ∀ e ∈ post, isBlPush e = false) ∧
     ((∀ i, (fun _ => (5 : ℚ)) i = (sampleWorld false).targetPrev i) →
       ∀ e ∈ (mc_line (sampleWorld false) (fun _ => 5) samplePl).2.1, isBlPush e = false)) :=
  ⟨rfl, mc_line_backlash_spec (sampleWorld false) (fun _ => 5) samplePl rfl⟩


/-- observable effects of `mc_parking_motion`: the `plan_buffer_line`
invocation and the stepper calls of the accepted branch. -/
inductive ParkEvent (F : Type) where
  | push (target : Vec F)
  | parkingSetupBuffer
  | prepBuffer
  | wakeUp

/-- state visible to `mc_parking_motion`. -/
structure ParkWorld (F : Type) where
  abort : Bool
  execSysMotion : Bool
  endMotion : Bool
  cycleCompleteFlag : Bool
  planAccept : Vec F → Bool

/-- `mc_parking_motion` (source lines 667-683). -/
def mc_parking_motion [LinearOrderedField F] (w : ParkWorld F) (parking_target : Vec F)
    (pl : PlanData F) : ParkWorld F × List (ParkEvent F) × Bool :=
  if w.abort = true then (w, [], false)
  else if w.planAccept parking_target = true then
    ({ w with execSysMotion := true, endMotion := false },
     [.push parking_target, .parkingSetupBuffer, .prepBuffer, .wakeUp], true)
  else
    ({ w with cycleCompleteFlag := true }, [.push parking_target], false)

/-- C10: `mc_parking_motion` returns false with no state change and no
planner push when the system is aborting; a planner rejection flags
`EXEC_CYCLE_COMPLETE` and returns false; and `execute_sys_motion` is switched
on exactly in the accepted branch, which returns true. -/
theorem mc_parking_motion_spec {F : Type} [LinearOrderedField F] (w : ParkWorld F)
    (parking_target : Vec F) (pl : PlanData F) :
    (w.abort = true → mc_parking_motion w parking_target pl = (w, [], false)) ∧
    (w.abort = false → w.planAccept parking_target = false →
      (mc_parking_motion w parking_target pl).1.cycleCompleteFlag = true ∧
      (mc_parking_motion w parking_target pl).2.2 = false ∧
      (mc_parking_motion w parking_target pl).1.execSysMotion = w.execSysMotion) ∧
    (w.abort = false → w.planAccept parking_target = true →
      (mc_parking_motion w parking_target pl).1.execSysMotion = true ∧
      (mc_parking_motion w parking_target pl).2.2 = true) ∧
    ((mc_parking_motion w parking_target pl).1.execSysMotion = true →
      w.execSysMotion = true ∨ (w.abort = false ∧ w.planAccept parking_target = true)) := by
  unfold mc_parking_motion
  refine ⟨?_, ?_, ?_, ?_⟩
  · intro ha
    simp [ha]
  · intro ha hacc
    simp [ha, hacc]
  · intro ha hacc
    simp [ha, hacc]
  · intro h
    by_cases ha : w.abort = true
    · simp [ha] at h
      exact Or.inl h
    · by_cases hacc : w.planAccept parking_target = true
      · exact Or.inr ⟨by simpa using ha, hacc⟩
      · simp [ha, hacc] at h
        exact Or.inl h

/-- a sample parking world over `ℚ`. -/
def sampleParkWorld (ab acc : Bool) : ParkWorld ℚ :=
  { abort := ab, execSysMotion := false, endMotion := true, cycleCompleteFlag := false,
    planAccept := fun _ => acc }

/-- witness: the parking theorem evaluated at a concrete rejected line. -/
theorem mc_parking_motion_spec_witness :
    ((sampleParkWorld false false).abort = false →
      (sampleParkWorld false false).planAccept (fun _ => 2) = false →
      (mc_parking_motion (sampleParkWorld false false) (fun _ => 2) samplePl).1.cycleCompleteFlag
          = true ∧
      (mc_parking_motion (sampleParkWorld false false) (fun _ => 2) samplePl).2.2 = false ∧
      (mc_parking_motion (sampleParkWorld false false) (fun _ => 2) samplePl).1.execSysMotion
          = (sampleParkWorld false false).execSysMotion) ∧
    ((sampleParkWorld false false).abort = true →
      mc_parking_motion (sampleParkWorld false false) (fun _ => 2) samplePl
        = (sampleParkWorld false false, [], false)) :=
  ⟨(mc_parking_motion_spec (sampleParkWorld false false) (fun _ => 2) samplePl).2.1,
   (mc_parking_motion_spec (sampleParkWorld false false) (fun _ => 2) samplePl).1⟩

/-- alarm codes posted by the homing path. -/
inductive AlarmCode where
  | hardLimit
  | homingFailReset
deriving DecidableEq

/-- observable effects of `mc_homing_cycle`. -/
inductive HomeEvent where
  | mcReset
  | setAlarm (a : AlarmCode)
  | limitsEnable (hard : Bool) (homing : Bool)
  | goHome (mask : ℕ)
  | syncGc
  | syncPlan
deriving DecidableEq

/-- the status codes returned by `mc_homing_cycle`. -/
inductive StatusCode where
  | ok
  | unhandled
  | limitsEngaged
deriving DecidableEq

/-- state visible to `mc_homing_cycle`; `limitsActive` models
`hal.limits_get_state().value != 0` (held constant over the call), `goHomeOk`
the result of the external `limits_go_home`, `rtOk` the result of
`protocol_execute_realtime`. -/
structure HomingWorld where
  twoSwitches : Bool
  hardEnabled : Bool
  checkAtInit : Bool
  limitsActive : Bool
  homingCycle : Fin 3 → ℕ
  goHomeOk : ℕ → Bool
  rtOk : Bool

/-- `mc_homing_cycle` (source lines 537-593); the argument is
`cycle.mask`. -/
def mc_homing_cycle (w : HomingWorld) (cycle : ℕ) : List HomeEvent × StatusCode :=
  if w.twoSwitches = true ∧ w.limitsActive = true then
    ([.mcReset, .setAlarm .hardLimit], .unhandled)
  else
    let ev0 : List HomeEvent := [.limitsEnable false true]
    let r :=
      if cycle ≠ 0 then (cycle, [HomeEvent.goHome cycle])
      else
        let step := fun (st : ℕ × Bool × List HomeEvent) (idx : Fin 3) =>
          if st.2.1 = true then st
          else if w.homingCycle idx ≠ 0 then
            (w.homingCycle idx, !w.goHomeOk (w.homingCycle idx),
             st.2.2 ++ [HomeEvent.goHome (w.homingCycle idx)])
          else st
        let f := ([0, 1, 2] : List (Fin 3)).foldl step (0, false, [])
        (f.1, f.2.2)
    if r.1 ≠ 0 ∧ w.rtOk = false then (ev0 ++ r.2, .unhandled)
    else
      (ev0 ++ (r.2 ++ (if r.1 ≠ 0 then [HomeEvent.syncGc, HomeEvent.syncPlan] else []))
        ++ [.limitsEnable w.hardEnabled false],
       if w.hardEnabled = true ∧ w.checkAtInit = true ∧ w.limitsActive = true
        then .limitsEngaged else .ok)

/-- C9: with the two-switches-on-one-pin setting configured and a limit
input active, `mc_homing_cycle` issues a system reset, posts the HardLimit
alarm, returns `Status_Unhandled`, and commands no homing motion. -/
theorem mc_homing_two_switches_spec (w : HomingWorld) (cycle : ℕ)
    (h1 : w.twoSwitches = true) (h2 : w.limitsActive = true) :
    mc_homing_cycle w cycle
        = ([HomeEvent.mcReset, HomeEvent.setAlarm AlarmCode.hardLimit], StatusCode.unhandled) ∧
    ∀ m, HomeEvent.goHome m ∉ (mc_homing_cycle w cycle).1 := by
  unfold mc_homing_cycle
  simp [h1, h2]

/-- witness: the homing precondition theorem at a concrete configuration. -/
theorem mc_homing_two_switches_spec_witness :
    mc_homing_cycle ⟨true, true, false, true, fun _ => 1, fun _ => true, true⟩ 7
        = ([HomeEvent.mcReset, HomeEvent.setAlarm AlarmCode.hardLimit], StatusCode.unhandled) ∧
    ∀ m, HomeEvent.goHome m
        ∉ (mc_homing_cycle ⟨true, true, false, true, fun _ => 1, fun _ => true, true⟩ 7).1 :=
  mc_homing_two_switches_spec ⟨true, true, false, true, fun _ => 1, fun _ => true, true⟩ 7 rfl rfl


/-- realtime execution flags set by the command ingest. -/
inductive ExecFlag where
  | stop
  | statusReport
  | cycleStart
  | feedHold
  | safetyDoor
  | gcodeReport
  | pidReport
deriving DecidableEq

/-- observable effects of `protocol_enqueue_realtime_command`. -/
inductive RtEffect where
  | setExecState (flag : ExecFlag)
  | mcReset
  | setExitFlag
  | cancelReadBuffer
  | resetCharCounter
  | reportAll
  | cancelToolChange
  | toggleOptionalStop
  | feedOverride (c : ℕ)
  | accessoryOverride (c : ℕ)
deriving DecidableEq

/-- the `CMD_*` byte values from `grbl.h` (the header is not part of this
unit, so they are left as parameters; a C `switch` requires them to be
pairwise distinct and distinct from the literal labels). -/
structure RtCmds where
  CMD_STOP : ℕ
  CMD_RESET : ℕ
  CMD_EXIT : ℕ
  CMD_STATUS_REPORT_ALL : ℕ
  CMD_STATUS_REPORT : ℕ
  CMD_CYCLE_START : ℕ
  CMD_FEED_HOLD : ℕ
  CMD_SAFETY_DOOR : ℕ
  CMD_JOG_CANCEL : ℕ
  CMD_GCODE_REPORT : ℕ
  CMD_OPTIONAL_STOP_TOGGLE : ℕ
  CMD_PID_REPORT : ℕ
  CMD_OVERRIDE_FEED_RESET : ℕ
  CMD_OVERRIDE_FEED_COARSE_PLUS : ℕ
  CMD_OVERRIDE_FEED_COARSE_MINUS : ℕ
  CMD_OVERRIDE_FEED_FINE_PLUS : ℕ
  CMD_OVERRIDE_FEED_FINE_MINUS : ℕ
  CMD_OVERRIDE_RAPID_RESET : ℕ
  CMD_OVERRIDE_RAPID_MEDIUM : ℕ
  CMD_OVERRIDE_RAPID_LOW : ℕ
  CMD_OVERRIDE_SPINDLE_RESET : ℕ
  CMD_OVERRIDE_SPINDLE_COARSE_PLUS : ℕ
  CMD_OVERRIDE_SPINDLE_COARSE_MINUS : ℕ
  CMD_OVERRIDE_SPINDLE_FINE_PLUS : ℕ
  CMD_OVERRIDE_SPINDLE_FINE_MINUS : ℕ
  CMD_OVERRIDE_SPINDLE_STOP : ℕ
  CMD_OVERRIDE_COOLANT_FLOOD_TOGGLE : ℕ
  CMD_OVERRIDE_COOLANT_MIST_TOGGLE : ℕ
  CMD_STATUS_REPORT_LEGACY : ℕ
  CMD_CYCLE_START_LEGACY : ℕ
  CMD_FEED_HOLD_LEGACY : ℕ

/-- the first `switch` of `protocol_enqueue_realtime_command`
(source lines 1374-1481); cases in source order, `'\n'` = 10, `'\r'` = 13,
`' '` = 32.  `eStop`, `capDoor`, `capStop` model
`hal.system_control_get_state().e_stop`, `hal.driver_cap.safety_door` and
`hal.driver_cap.program_stop`. -/
def rtFirstSwitch (k : RtCmds) (eStop capDoor capStop : Bool) (c : ℕ) :
    Bool × List RtEffect :=
  if c = 10 ∨ c = 13 then (false, [])
  else if c = k.CMD_STOP then
    (true, [.setExecState .stop, .resetCharCounter, .cancelReadBuffer])
  else if c = k.CMD_RESET then (true, if eStop = true then [] else [.mcReset])
  else if c = k.CMD_EXIT then (true, [.mcReset, .setExitFlag])
  else if c = k.CMD_STATUS_REPORT_ALL then (true, [.reportAll, .setExecState .statusReport])
  else if c = k.CMD_STATUS_REPORT ∨ c = 5 then (true, [.setExecState .statusReport])
  else if c = k.CMD_CYCLE_START then (true, [.setExecState .cycleStart, .cancelToolChange])
  else if c = k.CMD_FEED_HOLD then (true, [.setExecState .feedHold])
  else if c = k.CMD_SAFETY_DOOR then
    (if capDoor = true then (false, []) else (true, [.setExecState .safetyDoor]))
  else if c = k.CMD_JOG_CANCEL then (true, [.resetCharCounter, .cancelReadBuffer])
  else if c = k.CMD_GCODE_REPORT then (true, [.setExecState .gcodeReport])
  else if c = k.CMD_OPTIONAL_STOP_TOGGLE then
    (false, if capStop = true then [] else [.toggleOptionalStop])
  else if c = k.CMD_PID_REPORT then (true, [.setExecState .pidReport])
  else if c = k.CMD_OVERRIDE_FEED_RESET ∨ c = k.CMD_OVERRIDE_FEED_COARSE_PLUS ∨
      c = k.CMD_OVERRIDE_FEED_COARSE_MINUS ∨ c = k.CMD_OVERRIDE_FEED_FINE_PLUS ∨
      c = k.CMD_OVERRIDE_FEED_FINE_MINUS ∨ c = k.CMD_OVERRIDE_RAPID_RESET ∨
      c = k.CMD_OVERRIDE_RAPID_MEDIUM ∨ c = k.CMD_OVERRIDE_RAPID_LOW then
    (true, [.feedOverride c])
  else if c = k.CMD_OVERRIDE_SPINDLE_RESET ∨ c = k.CMD_OVERRIDE_SPINDLE_COARSE_PLUS ∨
      c = k.CMD_OVERRIDE_SPINDLE_COARSE_MINUS ∨ c = k.CMD_OVERRIDE_SPINDLE_FINE_PLUS ∨
      c = k.CMD_OVERRIDE_SPINDLE_FINE_MINUS ∨ c = k.CMD_OVERRIDE_SPINDLE_STOP ∨
      c = k.CMD_OVERRIDE_COOLANT_FLOOD_TOGGLE ∨ c = k.CMD_OVERRIDE_COOLANT_MIST_TOGGLE then
    (true, [.accessoryOverride c])
  else
    (decide (c < 32 ∨ (127 ≤ c ∧ c ≤ 191)), [])

/-- the second `switch` of `protocol_enqueue_realtime_command`
(source lines 1487-1515), reached only when the byte was not yet dropped. -/
def rtSecondSwitch (k : RtCmds) (keepRt legacyRt : Bool) (c : ℕ) :
    Bool × List RtEffect :=
  if c = k.CMD_STATUS_REPORT_LEGACY then
    if keepRt = false ∨ legacyRt = true then (true, [.setExecState .statusReport])
    else (false, [])
  else if c = k.CMD_CYCLE_START_LEGACY then
    if keepRt = false ∨ legacyRt = true then
      (true, [.setExecState .cycleStart, .cancelToolChange])
    else (false, [])
  else if c = k.CMD_FEED_HOLD_LEGACY then
    if keepRt = false ∨ legacyRt = true then (true, [.setExecState .feedHold])
    else (false, [])
  else
    (decide (¬(keepRt = true ∨ c < 127)), [])

/-- `protocol_enqueue_realtime_command` (source lines 1366-1518): result is
the `drop` flag and the system effects, for one input byte `c`. -/
def protocol_enqueue_realtime_command (k : RtCmds)
    (eStop keepRt legacyRt capDoor capStop : Bool) (c : ℕ) : Bool × List RtEffect :=
  let r1 := rtFirstSwitch k eStop capDoor capStop c
  if r1.1 = true then r1
  else
    let r2 := rtSecondSwitch k keepRt legacyRt c
    (r2.1, r1.2 ++ r2.2)


/-- the byte `c` is none of the assigned control codes handled by the first
switch (the line boundaries 10 and 13 and the literal label 5 included). -/
def unassignedCode (k : RtCmds) (c : ℕ) : Prop :=
  c ≠ 10 ∧ c ≠ 13 ∧ c ≠ 5 ∧
  c ≠ k.CMD_STOP ∧ c ≠ k.CMD_RESET ∧ c ≠ k.CMD_EXIT ∧
  c ≠ k.CMD_STATUS_REPORT_ALL ∧ c ≠ k.CMD_STATUS_REPORT ∧
  c ≠ k.CMD_CYCLE_START ∧ c ≠ k.CMD_FEED_HOLD ∧ c ≠ k.CMD_SAFETY_DOOR ∧
  c ≠ k.CMD_JOG_CANCEL ∧ c ≠ k.CMD_GCODE_REPORT ∧
  c ≠ k.CMD_OPTIONAL_STOP_TOGGLE ∧ c ≠ k.CMD_PID_REPORT ∧
  c ≠ k.CMD_OVERRIDE_FEED_RESET ∧ c ≠ k.CMD_OVERRIDE_FEED_COARSE_PLUS ∧
  c ≠ k.CMD_OVERRIDE_FEED_COARSE_MINUS ∧ c ≠ k.CMD_OVERRIDE_FEED_FINE_PLUS ∧
  c ≠ k.CMD_OVERRIDE_FEED_FINE_MINUS ∧ c ≠ k.CMD_OVERRIDE_RAPID_RESET ∧
  c ≠ k.CMD_OVERRIDE_RAPID_MEDIUM ∧ c ≠ k.CMD_OVERRIDE_RAPID_LOW ∧
  c ≠ k.CMD_OVERRIDE_SPINDLE_RESET ∧ c ≠ k.CMD_OVERRIDE_SPINDLE_COARSE_PLUS ∧
  c ≠ k.CMD_OVERRIDE_SPINDLE_COARSE_MINUS ∧ c ≠ k.CMD_OVERRIDE_SPINDLE_FINE_PLUS ∧
  c ≠ k.CMD_OVERRIDE_SPINDLE_FINE_MINUS ∧ c ≠ k.CMD_OVERRIDE_SPINDLE_STOP ∧
  c ≠ k.CMD_OVERRIDE_COOLANT_FLOOD_TOGGLE ∧ c ≠ k.CMD_OVERRIDE_COOLANT_MIST_TOGGLE

/-- C8: the line-boundary bytes 10 and 13 are never dropped by the realtime
command ingest, and any byte of `[0x00,0x20) ∪ [0x7F,0xBF]` that is not an
assigned control code is dropped with no realtime effect at all. -/
theorem protocol_enqueue_realtime_spec (k : RtCmds)
    (eStop keepRt legacyRt capDoor capStop : Bool) (c : ℕ)
    (hleg1 : k.CMD_STATUS_REPORT_LEGACY ≠ 10 ∧ k.CMD_STATUS_REPORT_LEGACY ≠ 13)
    (hleg2 : k.CMD_CYCLE_START_LEGACY ≠ 10 ∧ k.CMD_CYCLE_START_LEGACY ≠ 13)
    (hleg3 : k.CMD_FEED_HOLD_LEGACY ≠ 10 ∧ k.CMD_FEED_HOLD_LEGACY ≠ 13) :
    ((c = 10 ∨ c = 13) →
      (protocol_enqueue_realtime_command k eStop keepRt legacyRt capDoor capStop c).1
        = false) ∧
    ((c < 32 ∨ (127 ≤ c ∧ c ≤ 191)) → unassignedCode k c →
      protocol_enqueue_realtime_command k eStop keepRt legacyRt capDoor capStop c
        = (true, [])) := by
  constructor
  · rintro (rfl | rfl) <;>
      simp [protocol_enqueue_realtime_command, rtFirstSwitch, rtSecondSwitch,
        Ne.symm hleg1.1, Ne.symm hleg1.2, Ne.symm hleg2.1, Ne.symm hleg2.2,
        Ne.symm hleg3.1, Ne.symm hleg3.2]
  · intro hrange hun
    obtain ⟨h10, h13, h5, e1, e2, e3, e4, e5, e6, e7, e8, e9, e10, e11, e12,
      f1, f2, f3, f4, f5, f6, f7, f8, g1, g2, g3, g4, g5, g6, g7, g8⟩ := hun
    simp [protocol_enqueue_realtime_command, rtFirstSwitch, h10, h13, h5,
      e1, e2, e3, e4, e5, e6, e7, e8, e9, e10, e11, e12,
      f1, f2, f3, f4, f5, f6, f7, f8, g1, g2, g3, g4, g5, g6, g7, g8, hrange]

/-- a concrete assignment of the command bytes (pairwise distinct, clear of
the literal labels). -/
def sampleCmds : RtCmds :=
  ⟨200, 201, 202, 203, 204, 205, 206, 207, 208, 209, 210, 211, 212, 213, 214,
   215, 216, 217, 218, 219, 220, 221, 222, 223, 224, 225, 226, 227, 228, 229, 230⟩

/-- witness: the ingest theorem at the newline byte and at the unassigned
byte 130. -/
theorem protocol_enqueue_realtime_spec_witness :
    (protocol_enqueue_realtime_command sampleCmds false false false false false 10).1
        = false ∧
    protocol_enqueue_realtime_command sampleCmds false false false false false 130
        = (true, []) :=
  ⟨(protocol_enqueue_realtime_spec sampleCmds false false false false false 10
      (by decide) (by decide) (by decide)).1 (Or.inl rfl),
   (protocol_enqueue_realtime_spec sampleCmds false false false false false 130
      (by decide) (by decide) (by decide)).2 (Or.inr (by decide)) (by unfold unassignedCode; decide)⟩


/-- the circle-plane selection of `mc_arc` (`plane_t`). -/
structure Plane where
  axis_0 : Fin 3
  axis_1 : Fin 3
  axis_linear : Fin 3

/-- environment of `mc_arc`: the libm functions (external to the repository,
hence parameters), `M_PI`, `ARC_ANGULAR_TRAVEL_EPSILON`,
`settings.arc_tolerance`, and `N_ARC_CORRECTION` (both macros live in
headers outside this unit). -/
structure ArcEnv (F : Type) where
  atan2f : F → F → F
  cosf : F → F
  sinf : F → F
  sqrtf : F → F
  pi_val : F
  eps : F
  tol : F
  nArcCorrection : ℕ

/-- signed angular travel computed by `mc_arc` (source lines 173-189). -/
def mc_arc_travel [LinearOrderedField F] (env : ArcEnv F) (position target offset : Vec F)
    (plane : Plane) (is_clockwise_arc : Bool) : F :=
  let center_axis0 := position plane.axis_0 + offset plane.axis_0
  let center_axis1 := position plane.axis_1 + offset plane.axis_1
  let r_axis0 := -offset plane.axis_0
  let r_axis1 := -offset plane.axis_1
  let rt_axis0 := target plane.axis_0 - center_axis0
  let rt_axis1 := target plane.axis_1 - center_axis1
  let angular_travel := env.atan2f (r_axis0 * rt_axis1 - r_axis1 * rt_axis0)
    (r_axis0 * rt_axis0 + r_axis1 * rt_axis1)
  if is_clockwise_arc = true then
    if -env.eps ≤ angular_travel then angular_travel - 2 * env.pi_val else angular_travel
  else
    if angular_travel ≤ env.eps then angular_travel + 2 * env.pi_val else angular_travel

/-- the segment count of `mc_arc` (source line 195); the `(uint16_t)floorf`
cast is the floor followed by the 16-bit wrap. -/
def mc_arc_segments [LinearOrderedField F] [FloorRing F] (env : ArcEnv F)
    (position target offset : Vec F) (plane : Plane) (is_clockwise_arc : Bool)
    (radius : F) : ℕ :=
  (Int.toNat
    ⌊|0.5 * mc_arc_travel env position target offset plane is_clockwise_arc * radius| /
      env.sqrtf (env.tol * (2 * radius - env.tol))⌋) % 65536

/-- the rotation approximant `cos_T` of `mc_arc` (source lines 237, 239):
`cos_T = (2 − θ²)·0.5`. -/
def arcApproxCos [LinearOrderedField F] (theta_per_segment : F) : F :=
  (2 - theta_per_segment * theta_per_segment) * 0.5

/-- the rotation approximant `sin_T` of `mc_arc` (source line 238), computed
from the pre-halved `cos_T`: `sin_T = θ·0.16666667·((2 − θ²) + 4)`. -/
def arcApproxSin [LinearOrderedField F] (theta_per_segment : F) : F :=
  theta_per_segment * 0.16666667 * ((2 - theta_per_segment * theta_per_segment) + 4)

/-- loop state of the arc decomposition: radius vector, the walked position,
and the correction counter. -/
structure ArcSt (F : Type) where
  r_axis0 : F
  r_axis1 : F
  pos : Vec F
  count : ℕ

/-- one iteration `i` of the segment loop of `mc_arc`
(source lines 246-267). -/
def arcStep [LinearOrderedField F] (env : ArcEnv F) (offset : Vec F) (plane : Plane)
    (cos_T sin_T theta_per_segment linear_per_segment center_axis0 center_axis1 : F)
    (i : ℕ) (st : ArcSt F) : ArcSt F :=
  let r :=
    if st.count < env.nArcCorrection then
      (st.r_axis0 * cos_T - st.r_axis1 * sin_T,
       st.r_axis0 * sin_T + st.r_axis1 * cos_T,
       st.count + 1)
    else
      let cos_Ti := env.cosf ((i : F) * theta_per_segment)
      let sin_Ti := env.sinf ((i : F) * theta_per_segment)
      (-offset plane.axis_0 * cos_Ti + offset plane.axis_1 * sin_Ti,
       -offset plane.axis_0 * sin_Ti - offset plane.axis_1 * cos_Ti,
       0)
  let p1 := Function.update st.pos plane.axis_0 (center_axis0 + r.1)
  let p2 := Function.update p1 plane.axis_1 (center_axis1 + r.2.1)
  let p3 := Function.update p2 plane.axis_linear
    (p2 plane.axis_linear + linear_per_segment)
  { r_axis0 := r.1, r_axis1 := r.2.1, pos := p3, count := r.2.2 }

/-- the loop state after iterations `1..n` of the segment loop. -/
def arcStateAt [LinearOrderedField F] (env : ArcEnv F) (offset : Vec F) (plane : Plane)
    (cos_T sin_T theta_per_segment linear_per_segment center_axis0 center_axis1 : F)
    (init : ArcSt F) (n : ℕ) : ArcSt F :=
  (List.range' 1 n).foldl
    (fun st i => arcStep env offset plane cos_T sin_T theta_per_segment
      linear_per_segment center_axis0 center_axis1 i st) init

/-- the segment loop plus the terminating `mc_line(target, pl_data)` call
(source lines 246-275), recorded as the list of targets passed to `mc_line`;
`ab` is the constant abort flag: an aborted `mc_line` returns false, upon
which the loop bails before the final call. -/
def arcLoop [LinearOrderedField F] (env : ArcEnv F) (offset : Vec F) (plane : Plane)
    (cos_T sin_T theta_per_segment linear_per_segment center_axis0 center_axis1 : F)
    (ab : Bool) (target : Vec F) :
    ℕ → ℕ → ArcSt F → List (Vec F) → List (Vec F)
  | 0, _, _, acc => acc ++ [target]
  | fuel + 1, i, st, acc =>
    let st' := arcStep env offset plane cos_T sin_T theta_per_segment
      linear_per_segment center_axis0 center_axis1 i st
    if ab = true then acc ++ [st'.pos]
    else arcLoop env offset plane cos_T sin_T theta_per_segment linear_per_segment
      center_axis0 center_axis1 ab target fuel (i + 1) st' (acc ++ [st'.pos])

/-- `mc_arc` (source lines 170-276) as the sequence of targets passed to
`mc_line`; the inverse-time feed scaling (lines 202-205) mutates only the
planner data, never the targets, and hence does not appear in this trace. -/
def mc_arc [LinearOrderedField F] [FloorRing F] (env : ArcEnv F) (ab : Bool)
    (target : Vec F) (pl_data : PlanData F) (position offset : Vec F) (radius : F)
    (plane : Plane) (is_clockwise_arc : Bool) : List (Vec F) :=
  let center_axis0 := position plane.axis_0 + offset plane.axis_0
  let center_axis1 := position plane.axis_1 + offset plane.axis_1
  let angular_travel := mc_arc_travel env position target offset plane is_clockwise_arc
  let segments := mc_arc_segments env position target offset plane is_clockwise_arc radius
  if segments ≠ 0 then
    let theta_per_segment := angular_travel / (segments : F)
    let linear_per_segment :=
      (target plane.axis_linear - position plane.axis_linear) / (segments : F)
    arcLoop env offset plane (arcApproxCos theta_per_segment)
      (arcApproxSin theta_per_segment) theta_per_segment linear_per_segment
      center_axis0 center_axis1 ab target (segments - 1) 1
      ⟨-offset plane.axis_0, -offset plane.axis_1, position, 0⟩ []
  else
    [target]

/-- with no abort, every `arcLoop` run ends with the final target call. -/
lemma arcLoop_getLast [LinearOrderedField F] (env : ArcEnv F) (offset : Vec F)
    (plane : Plane) (cos_T sin_T theta lps c0 c1 : F) (target : Vec F) :
    ∀ (fuel i : ℕ) (st : ArcSt F) (acc : List (Vec F)),
      (arcLoop env offset plane cos_T sin_T theta lps c0 c1 false target
        fuel i st acc).getLast? = some target := by
  intro fuel
  induction fuel with
  | zero =>
    intro i st acc
    simp [arcLoop]
  | succ n ih =>
    intro i st acc
    simp only [arcLoop, Bool.false_eq_true, if_false]
    exact ih (i + 1) _ _

/-- C3: for every arc not interrupted by abort, the last target passed to
`mc_line` is exactly the unmodified commanded target; with a computed segment
count of zero, there is exactly one `mc_line` call, and it carries the
target. -/
theorem mc_arc_last_call_spec {F : Type} [LinearOrderedField F] [FloorRing F]
    (env : ArcEnv F) (target : Vec F) (pl_data : PlanData F) (position offset : Vec F)
    (radius : F) (plane : Plane) (is_clockwise_arc : Bool) :
    (mc_arc env false target pl_data position offset radius plane
        is_clockwise_arc).getLast? = some target ∧
    (mc_arc_segments env position target offset plane is_clockwise_arc radius = 0 →
      mc_arc env false target pl_data position offset radius plane is_clockwise_arc
        = [target]) := by
  constructor
  · unfold mc_arc
    by_cases h : mc_arc_segments env position target offset plane is_clockwise_arc radius = 0
    · simp [h]
    · simp only [if_pos h, ne_eq]
      exact arcLoop_getLast env offset plane _ _ _ _ _ _ target _ 1 _ []
  · intro h
    unfold mc_arc
    simp [h]

/-- a fully inert arc environment over `ℚ` (dummy libm functions) for
witnessing the structural arc theorems. -/
def qArcEnv : ArcEnv ℚ :=
  { atan2f := fun _ _ => 0, cosf := fun _ => 0, sinf := fun _ => 0,
    sqrtf := fun _ => 1, pi_val := 0, eps := 0, tol := 1, nArcCorrection := 12 }

/-- the XY plane with Z as the linear axis. -/
def xyPlane : Plane := ⟨0, 1, 2⟩

/-- the zero vector over `ℚ`. -/
def zeroVecQ : Vec ℚ := fun _ => 0

/-- witness: the arc termination theorem at a degenerate (zero-segment)
arc. -/
theorem mc_arc_last_call_spec_witness :
    (mc_arc qArcEnv false zeroVecQ samplePl zeroVecQ zeroVecQ 0 xyPlane
        false).getLast? = some zeroVecQ ∧
    mc_arc qArcEnv false zeroVecQ samplePl zeroVecQ zeroVecQ 0 xyPlane false
      = [zeroVecQ] :=
  ⟨(mc_arc_last_call_spec qArcEnv zeroVecQ samplePl zeroVecQ zeroVecQ 0 xyPlane false).1,
   (mc_arc_last_call_spec qArcEnv zeroVecQ samplePl zeroVecQ zeroVecQ 0 xyPlane false).2
     (by norm_num [mc_arc_segments, mc_arc_travel, qArcEnv, zeroVecQ, xyPlane])⟩


/-- the mathematical `atan2`, modelling the libm `atan2f`. -/
noncomputable def atan2R (y x : ℝ) : ℝ :=
  if 0 < x then Real.arctan (y / x)
  else if x < 0 then
    if 0 ≤ y then Real.arctan (y / x) + Real.pi else Real.arctan (y / x) - Real.pi
  else if 0 < y then Real.pi / 2
  else if y < 0 then -(Real.pi / 2)
  else 0

/-- the arc environment over `ℝ` with the exact library functions. -/
noncomputable def realArcEnv (eps tol : ℝ) (nac : ℕ) : ArcEnv ℝ :=
  { atan2f := atan2R, cosf := Real.cos, sinf := Real.sin, sqrtf := Real.sqrt,
    pi_val := Real.pi, eps := eps, tol := tol, nArcCorrection := nac }

/-- S2 scenario: position (10,0,0). -/
noncomputable def s2position : Vec ℝ := ![10, 0, 0]

/-- S2 scenario: target (0,10,0). -/
noncomputable def s2target : Vec ℝ := ![0, 10, 0]

/-- S2 scenario: offset (−10,0,0). -/
noncomputable def s2offset : Vec ℝ := ![-10, 0, 0]

/-- the S2 quarter arc has angular travel π/2. -/
lemma s2_travel (eps : ℝ) (h2 : eps < 1) :
    mc_arc_travel (realArcEnv eps (1 / 500) 12) s2position s2target s2offset xyPlane false
      = Real.pi / 2 := by
  have hat : atan2R 100 0 = Real.pi / 2 := by
    unfold atan2R
    norm_num
  have hpi : (1 : ℝ) < Real.pi / 2 := by nlinarith [Real.pi_gt_three]
  unfold mc_arc_travel realArcEnv s2position s2target s2offset xyPlane
  norm_num [hat]
  intro hle
  linarith

/-- the S2 quarter arc yields 39 segments. -/
lemma s2_segments (eps : ℝ) (h2 : eps < 1) :
    mc_arc_segments (realArcEnv eps (1 / 500) 12) s2position s2target s2offset xyPlane
      false 10 = 39 := by
  unfold mc_arc_segments
  rw [s2_travel eps h2]
  have habs : |(0.5 : ℝ) * (Real.pi / 2) * 10| = 2.5 * Real.pi := by
    have h : (0.5 : ℝ) * (Real.pi / 2) * 10 = 2.5 * Real.pi := by ring
    rw [h, abs_of_nonneg (by positivity)]
  have hc : ((1 : ℝ) / 500) * (2 * 10 - 1 / 500) = 9999 / 250000 := by norm_num
  have hcpos : (0 : ℝ) < 9999 / 250000 := by norm_num
  have hsq_pos : 0 < Real.sqrt (9999 / 250000) := Real.sqrt_pos.mpr hcpos
  have hup : Real.sqrt (9999 / 250000) < 1 / 5 := by
    rw [show (1 : ℝ) / 5 = Real.sqrt ((1 / 5) ^ 2) from (Real.sqrt_sq (by norm_num)).symm]
    exact Real.sqrt_lt_sqrt (le_of_lt hcpos) (by norm_num)
  have hlo : (1964 : ℝ) / 10000 < Real.sqrt (9999 / 250000) := by
    rw [show (1964 : ℝ) / 10000 = Real.sqrt ((1964 / 10000) ^ 2) from
      (Real.sqrt_sq (by norm_num)).symm]
    exact Real.sqrt_lt_sqrt (by norm_num) (by norm_num)
  have h39 : (39 : ℝ) ≤ 2.5 * Real.pi / Real.sqrt (9999 / 250000) := by
    rw [le_div_iff hsq_pos]
    nlinarith [Real.pi_gt_3141592]
  have h40 : 2.5 * Real.pi / Real.sqrt (9999 / 250000) < 40 := by
    rw [div_lt_iff hsq_pos]
    nlinarith [Real.pi_lt_3141593]
  have hfloor : ⌊2.5 * Real.pi / Real.sqrt (9999 / 250000)⌋ = (39 : ℤ) := by
    rw [Int.floor_eq_iff]
    constructor
    · exact_mod_cast h39
    · exact_mod_cast h40
  simp only [realArcEnv]
  rw [habs, hc, hfloor]
  decide

/-- C4: the segment count of `mc_arc` is
`⌊|½·θ·R| / √(tol·(2R − tol))⌋` (whenever that floor fits the `uint16_t`
cast), and on the S2 quarter arc (R = 10, tol = 0.002) it equals 39. -/
theorem mc_arc_segment_count_spec :
    (∀ (env : ArcEnv ℝ) (position target offset : Vec ℝ) (plane : Plane)
        (is_clockwise_arc : Bool) (radius : ℝ),
      ⌊|0.5 * mc_arc_travel env position target offset plane is_clockwise_arc * radius| /
          env.sqrtf (env.tol * (2 * radius - env.tol))⌋ < 65536 →
      mc_arc_segments env position target offset plane is_clockwise_arc radius
        = Int.toNat
            ⌊|0.5 * mc_arc_travel env position target offset plane is_clockwise_arc *
                radius| / env.sqrtf (env.tol * (2 * radius - env.tol))⌋) ∧
    (∀ eps : ℝ, 0 < eps → eps < 1 →
      mc_arc_segments (realArcEnv eps (1 / 500) 12) s2position s2target s2offset xyPlane
        false 10 = 39) := by
  constructor
  · intro env position target offset plane is_clockwise_arc radius h
    unfold mc_arc_segments
    have h2 : Int.toNat
        ⌊|0.5 * mc_arc_travel env position target offset plane is_clockwise_arc * radius| /
          env.sqrtf (env.tol * (2 * radius - env.tol))⌋ < 65536 := by omega
    exact Nat.mod_eq_of_lt h2
  · intro eps _ h2
    exact s2_segments eps h2

/-- witness: the segment-count theorem at the S2 arc and at a degenerate
zero-radius arc. -/
theorem mc_arc_segment_count_spec_witness :
    mc_arc_segments (realArcEnv (1 / 2) (1 / 500) 12) s2position s2target s2offset xyPlane
        false 10 = 39 ∧
    mc_arc_segments (realArcEnv 1 1 12) s2position s2target s2offset xyPlane false 0
      = Int.toNat
          ⌊|0.5 * mc_arc_travel (realArcEnv 1 1 12) s2position s2target s2offset xyPlane
              false * 0| /
            (realArcEnv 1 1 12).sqrtf
              ((realArcEnv 1 1 12).tol * (2 * 0 - (realArcEnv 1 1 12).tol))⌋ :=
  ⟨mc_arc_segment_count_spec.2 (1 / 2) (by norm_num) (by norm_num),
   mc_arc_segment_count_spec.1 (realArcEnv 1 1 12) s2position s2target s2offset xyPlane
     false 0
     (by
       rw [show |0.5 * mc_arc_travel (realArcEnv 1 1 12) s2position s2target s2offset
           xyPlane false * 0| = 0 by simp]
       rw [zero_div]
       norm_num)⟩


/-- unfolding one iteration of the segment loop. -/
lemma arcStateAt_succ [LinearOrderedField F] (env : ArcEnv F) (offset : Vec F)
    (plane : Plane) (cos_T sin_T theta lps c0 c1 : F) (init : ArcSt F) (m : ℕ) :
    arcStateAt env offset plane cos_T sin_T theta lps c0 c1 init (m + 1)
      = arcStep env offset plane cos_T sin_T theta lps c0 c1 (m + 1)
          (arcStateAt env offset plane cos_T sin_T theta lps c0 c1 init m) := by
  unfold arcStateAt
  rw [List.range'_concat, List.foldl_append]
  rw [(by omega : 1 + 1 * m = m + 1)]
  simp

/-- the correction counter evolution of one `arcStep`. -/
lemma arcStep_count [LinearOrderedField F] (env : ArcEnv F) (offset : Vec F)
    (plane : Plane) (cos_T sin_T theta lps c0 c1 : F) (i : ℕ) (st : ArcSt F) :
    (arcStep env offset plane cos_T sin_T theta lps c0 c1 i st).count
      = if st.count < env.nArcCorrection then st.count + 1 else 0 := by
  simp only [arcStep]
  split <;> rfl

/-- the incremental-rotation branch of `arcStep`. -/
lemma arcStep_r_rot [LinearOrderedField F] (env : ArcEnv F) (offset : Vec F)
    (plane : Plane) (cos_T sin_T theta lps c0 c1 : F) (i : ℕ) (st : ArcSt F)
    (h : st.count < env.nArcCorrection) :
    (arcStep env offset plane cos_T sin_T theta lps c0 c1 i st).r_axis0
        = st.r_axis0 * cos_T - st.r_axis1 * sin_T ∧
    (arcStep env offset plane cos_T sin_T theta lps c0 c1 i st).r_axis1
        = st.r_axis0 * sin_T + st.r_axis1 * cos_T := by
  simp only [arcStep, if_pos h]
  constructor <;> first | rfl | trivial

/-- the exact-correction branch of `arcStep`. -/
lemma arcStep_r_exact [LinearOrderedField F] (env : ArcEnv F) (offset : Vec F)
    (plane : Plane) (cos_T sin_T theta lps c0 c1 : F) (i : ℕ) (st : ArcSt F)
    (h : ¬st.count < env.nArcCorrection) :
    (arcStep env offset plane cos_T sin_T theta lps c0 c1 i st).r_axis0
        = -offset plane.axis_0 * env.cosf ((i : F) * theta)
          + offset plane.axis_1 * env.sinf ((i : F) * theta) ∧
    (arcStep env offset plane cos_T sin_T theta lps c0 c1 i st).r_axis1
        = -offset plane.axis_0 * env.sinf ((i : F) * theta)
          - offset plane.axis_1 * env.cosf ((i : F) * theta) := by
  simp only [arcStep, if_neg h]
  constructor <;> first | rfl | trivial

/-- the correction counter after `n` iterations cycles with period
`N_ARC_CORRECTION + 1`. -/
lemma arcStateAt_count [LinearOrderedField F] (env : ArcEnv F) (offset : Vec F)
    (plane : Plane) (cos_T sin_T theta lps c0 c1 : F) (init : ArcSt F)
    (hc : init.count = 0) :
    ∀ n, (arcStateAt env offset plane cos_T sin_T theta lps c0 c1 init n).count
      = n % (env.nArcCorrection + 1) := by
  intro n
  induction n with
  | zero =>
    simpa [arcStateAt] using hc
  | succ m ih =>
    rw [arcStateAt_succ, arcStep_count, ih]
    have hq := Nat.div_add_mod m (env.nArcCorrection + 1)
    by_cases h : m % (env.nArcCorrection + 1) < env.nArcCorrection
    · rw [if_pos h]
      conv_rhs => rw [← hq]
      rw [Nat.add_assoc, Nat.mul_add_mod]
      exact (Nat.mod_eq_of_lt (by omega)).symm
    · have ha : m % (env.nArcCorrection + 1) = env.nArcCorrection := by
        have := Nat.mod_lt m (y := env.nArcCorrection + 1) (Nat.succ_pos _)
        omega
      rw [if_neg h]
      have hrw : m + 1 = (env.nArcCorrection + 1) * (m / (env.nArcCorrection + 1) + 1) := by
        rw [Nat.mul_add, Nat.mul_one]
        omega
      rw [hrw, Nat.mul_mod_right]

/-- C5 amended: in the segment loop of `mc_arc` (correction counter starting
at 0), iteration `i ≥ 1` re-derives the radius vector exactly from the
initial offset via `cosf(i·θ)`/`sinf(i·θ)` precisely when
`N_ARC_CORRECTION + 1` divides `i` — i.e. after every `N_ARC_CORRECTION`
incremental rotations, not every `N_ARC_CORRECTION`-th segment — and every
other iteration rotates the previous radius vector with the approximants
`cos_T = (2 − θ²)·0.5` and `sin_T = θ·0.16666667·((2 − θ²) + 4)`. -/
theorem arc_correction_period_spec {F : Type} [LinearOrderedField F] (env : ArcEnv F)
    (offset : Vec F) (plane : Plane) (theta lps c0 c1 : F) (init : ArcSt F)
    (hc : init.count = 0) (i : ℕ) (hi : 1 ≤ i) :
    (((env.nArcCorrection + 1) ∣ i) →
      (arcStateAt env offset plane (arcApproxCos theta) (arcApproxSin theta) theta lps
          c0 c1 init i).r_axis0
        = -offset plane.axis_0 * env.cosf ((i : F) * theta)
          + offset plane.axis_1 * env.sinf ((i : F) * theta) ∧
      (arcStateAt env offset plane (arcApproxCos theta) (arcApproxSin theta) theta lps
          c0 c1 init i).r_axis1
        = -offset plane.axis_0 * env.sinf ((i : F) * theta)
          - offset plane.axis_1 * env.cosf ((i : F) * theta)) ∧
    (¬((env.nArcCorrection + 1) ∣ i) →
      (arcStateAt env offset plane (arcApproxCos theta) (arcApproxSin theta) theta lps
          c0 c1 init i).r_axis0
        = (arcStateAt env offset plane (arcApproxCos theta) (arcApproxSin theta) theta
            lps c0 c1 init (i - 1)).r_axis0 * arcApproxCos theta
          - (arcStateAt env offset plane (arcApproxCos theta) (arcApproxSin theta) theta
              lps c0 c1 init (i - 1)).r_axis1 * arcApproxSin theta ∧
      (arcStateAt env offset plane (arcApproxCos theta) (arcApproxSin theta) theta lps
          c0 c1 init i).r_axis1
        = (arcStateAt env offset plane (arcApproxCos theta) (arcApproxSin theta) theta
            lps c0 c1 init (i - 1)).r_axis0 * arcApproxSin theta
          + (arcStateAt env offset plane (arcApproxCos theta) (arcApproxSin theta) theta
              lps c0 c1 init (i - 1)).r_axis1 * arcApproxCos theta) := by
  obtain ⟨m, rfl⟩ : ∃ m, i = m + 1 := ⟨i - 1, by omega⟩
  have hcount := arcStateAt_count env offset plane (arcApproxCos theta)
    (arcApproxSin theta) theta lps c0 c1 init hc m
  constructor
  · intro hdvd
    have hm : m % (env.nArcCorrection + 1) = env.nArcCorrection := by
      rcases hdvd with ⟨k, hk⟩
      cases k with
      | zero =>
        simp at hk
      | succ k' =>
        have h2 : (env.nArcCorrection + 1) * (k' + 1)
            = (env.nArcCorrection + 1) * k' + (env.nArcCorrection + 1) := by ring
        have hmm : m = (env.nArcCorrection + 1) * k' + env.nArcCorrection := by omega
        rw [hmm, Nat.mul_add_mod]
        exact Nat.mod_eq_of_lt (Nat.lt_succ_self _)
    rw [arcStateAt_succ]
    exact arcStep_r_exact env offset plane _ _ theta lps c0 c1 (m + 1) _
      (by rw [hcount, hm]; omega)
  · intro hdvd
    have hm : m % (env.nArcCorrection + 1) < env.nArcCorrection := by
      have h1 : m % (env.nArcCorrection + 1) < env.nArcCorrection + 1 :=
        Nat.mod_lt _ (Nat.succ_pos _)
      by_contra hge
      push_neg at hge
      apply hdvd
      have hq := Nat.div_add_mod m (env.nArcCorrection + 1)
      refine ⟨m / (env.nArcCorrection + 1) + 1, ?_⟩
      rw [Nat.mul_add, Nat.mul_one]
      omega
    rw [arcStateAt_succ]
    have h := arcStep_r_rot env offset plane (arcApproxCos theta) (arcApproxSin theta)
      theta lps c0 c1 (m + 1) _ (by rw [hcount]; exact hm)
    simpa using h

/-- counterexample environment: `N_ARC_CORRECTION = 4` with sentinel library
functions that make the exact-correction branch observable. -/
def cexArcEnv : ArcEnv ℚ :=
  { atan2f := fun _ _ => 0, cosf := fun _ => 1000, sinf := fun _ => 1000,
    sqrtf := fun _ => 1, pi_val := 0, eps := 0, tol := 1, nArcCorrection := 4 }

/-- counterexample offset vector (−1,0,0). -/
def cexOffset : Vec ℚ := ![-1, 0, 0]

/-- counterexample loop entry state: radius vector `(-offset0, -offset1)`,
correction counter 0. -/
def cexInit : ArcSt ℚ := ⟨1, 0, zeroVecQ, 0⟩

/-- C5 counterexample: with `N_ARC_CORRECTION = 4`, the 4th iteration of the
segment loop does not re-derive the radius vector from the initial offset via
`cosf(4·θ)`/`sinf(4·θ)`; it still applies the incremental rotation (the exact
re-derivation happens on the 5th iteration). -/
theorem arc_correction_claim_cex :
    (arcStateAt cexArcEnv cexOffset xyPlane (arcApproxCos 0) (arcApproxSin 0) 0 0 0 0
        cexInit 4).r_axis0
      ≠ -cexOffset 0 * cexArcEnv.cosf ((4 : ℚ) * 0)
        + cexOffset 1 * cexArcEnv.sinf ((4 : ℚ) * 0) := by
  norm_num [arcStateAt, List.range', arcStep, cexArcEnv, cexOffset, cexInit,
    arcApproxCos, arcApproxSin, xyPlane, Matrix.cons_val_zero, Matrix.cons_val_one,
    Matrix.head_cons]

/-- witness: the amended correction-period theorem at the concrete
environment, iteration 5 (exact) and iteration 4 (rotation). -/
theorem arc_correction_period_spec_witness :
    ((arcStateAt cexArcEnv cexOffset xyPlane (arcApproxCos 0) (arcApproxSin 0) 0 0 0 0
        cexInit 5).r_axis0
      = -cexOffset 0 * cexArcEnv.cosf ((5 : ℚ) * 0)
        + cexOffset 1 * cexArcEnv.sinf ((5 : ℚ) * 0) ∧
     (arcStateAt cexArcEnv cexOffset xyPlane (arcApproxCos 0) (arcApproxSin 0) 0 0 0 0
        cexInit 5).r_axis1
      = -cexOffset 0 * cexArcEnv.sinf ((5 : ℚ) * 0)
        - cexOffset 1 * cexArcEnv.cosf ((5 : ℚ) * 0)) ∧
    ((arcStateAt cexArcEnv cexOffset xyPlane (arcApproxCos 0) (arcApproxSin 0) 0 0 0 0
        cexInit 4).r_axis0
      = (arcStateAt cexArcEnv cexOffset xyPlane (arcApproxCos 0) (arcApproxSin 0) 0 0 0 0
          cexInit 3).r_axis0 * arcApproxCos 0
        - (arcStateAt cexArcEnv cexOffset xyPlane (arcApproxCos 0) (arcApproxSin 0) 0 0 0 0
            cexInit 3).r_axis1 * arcApproxSin 0 ∧
     (arcStateAt cexArcEnv cexOffset xyPlane (arcApproxCos 0) (arcApproxSin 0) 0 0 0 0
        cexInit 4).r_axis1
      = (arcStateAt cexArcEnv cexOffset xyPlane (arcApproxCos 0) (arcApproxSin 0) 0 0 0 0
          cexInit 3).r_axis0 * arcApproxSin 0
        + (arcStateAt cexArcEnv cexOffset xyPlane (arcApproxCos 0) (arcApproxSin 0) 0 0 0 0
            cexInit 3).r_axis1 * arcApproxCos 0) :=
  ⟨(arc_correction_period_spec cexArcEnv cexOffset xyPlane 0 0 0 0 cexInit rfl 5
      (by norm_num)).1 (by decide),
   (arc_correction_period_spec cexArcEnv cexOffset xyPlane 0 0 0 0 cexInit rfl 4
      (by norm_num)).2 (by decide)⟩


/-- the end-taper modes of G76 (`Taper_None`, `Taper_Entry`, `Taper_Exit`,
`Taper_Both`). -/
inductive TaperType where
  | tnone
  | tentry
  | texit
  | tboth
deriving DecidableEq

/-- the fields of `gc_thread_data` used by `mc_thread`. -/
structure GcThreadData (F : Type) where
  z_final : F
  peak : F
  initial_depth : F
  depth : F
  depth_degression : F
  infeed_angle : F
  spring_passes : ℕ
  end_taper_type : TaperType
  end_taper_length : F
  main_taper_height : F
  cut_direction : F

/-- `calc_thread_doc` (source lines 371-374); `powf` is the libm power
function, a parameter of the embedding. -/
def calc_thread_doc [LinearOrderedField F] (powf : F → F → F) (pass : ℕ)
    (cut_depth inv_degression : F) : F :=
  cut_depth * powf (pass : F) inv_degression

/-- trace events of `mc_thread`: `mc_line` calls (target plus planner data)
and `mc_dwell` invocations. -/
inductive ThreadEv (F : Type) where
  | line (target : Vec F) (pl : PlanData F)
  | dwell (seconds : F)

/-- running state of the `mc_thread` pass loop: the local `target` array,
`doc`, `pass`, the three planner-data fields `mc_thread` mutates, the event
trace, and whether an early return has happened. -/
structure ThreadSt (F : Type) where
  target : Vec F
  doc : F
  pass : ℕ
  plRapid : Bool
  plSync : Bool
  plFhd : Bool
  trace : List (ThreadEv F)
  stopped : Bool

/-- the caller's planner data with the three fields `mc_thread` mutates set
to the given values. -/
def threadPlOf [LinearOrderedField F] (pl0 : PlanData F) (r sy fh : Bool) : PlanData F :=
  { pl0 with
    condition := { pl0.condition with
      rapid_motion := r,
      spindle := { pl0.condition.spindle with synchronized := sy } },
    feed_hold_disable := fh }

/-- the planner data passed to `mc_line` at state `st`. -/
def threadPl [LinearOrderedField F] (pl0 : PlanData F) (st : ThreadSt F) : PlanData F :=
  threadPlOf pl0 st.plRapid st.plSync st.plFhd

/-- a guarded state mutation, skipped after an early return. -/
def tmod {F : Type} (st : ThreadSt F) (f : ThreadSt F → ThreadSt F) : ThreadSt F :=
  if st.stopped = true then st else f st

/-- `target[..] = ..; if(!mc_line(target, pl_data)) return;` with the
constant abort flag `ab`. -/
def emitMove [LinearOrderedField F] (ab : Bool) (pl0 : PlanData F) (st : ThreadSt F)
    (f : Vec F → Vec F) : ThreadSt F :=
  if st.stopped = true then st
  else
    { st with
      target := f st.target
      trace := st.trace ++ [ThreadEv.line (f st.target) (threadPl pl0 st)]
      stopped := ab }

/-- `target[X_AXIS] += dx`. -/
def addX {F : Type} [LinearOrderedField F] (dx : F) (t : Vec F) : Vec F :=
  Function.update t 0 (t 0 + dx)

/-- `target[Z_AXIS] += dz`. -/
def addZ {F : Type} [LinearOrderedField F] (dz : F) (t : Vec F) : Vec F :=
  Function.update t 2 (t 2 + dz)

/-- `target[Z_AXIS] -= dz`. -/
def subZ {F : Type} [LinearOrderedField F] (dz : F) (t : Vec F) : Vec F :=
  Function.update t 2 (t 2 - dz)

/-- `target[X_AXIS] = x`. -/
def setX {F : Type} (x : F) (t : Vec F) : Vec F := Function.update t 0 x

/-- `target[Z_AXIS] = z`. -/
def setZ {F : Type} (z : F) (t : Vec F) : Vec F := Function.update t 2 z

/-- the head of one pass iteration (source lines 424-438): the rapid entry
move when no taper is configured, the switch to synchronized, feed-hold
disabled motion, and the latching dwell. -/
def threadPassHead [LinearOrderedField F] (ab : Bool) (pl0 : PlanData F)
    (td : GcThreadData F) (st : ThreadSt F) : ThreadSt F :=
  let s1 :=
    if td.end_taper_type = TaperType.tnone then
      emitMove ab pl0 st (addX ((td.peak + st.doc) * td.cut_direction))
    else st
  let s2 := tmod s1 (fun s => { s with plRapid := false, plSync := true, plFhd := true })
  tmod s2 (fun s => { s with trace := s.trace ++ [ThreadEv.dwell 0.01] })

/-- the cut segments of one pass (source lines 442-470): entry taper, main
part, exit taper; `etd`, `etls`, `doc0` are the entry-scaled
`end_taper_depth`, `end_taper_length` and `doc`. -/
def threadPassCuts [LinearOrderedField F] (ab : Bool) (pl0 : PlanData F)
    (td : GcThreadData F) (tl mth etd etls doc0 : F) (st : ThreadSt F) : ThreadSt F :=
  let s4 :=
    if td.end_taper_type = TaperType.tentry ∨ td.end_taper_type = TaperType.tboth then
      let a := emitMove ab pl0 st (addX ((td.peak + doc0 - etd) * td.cut_direction))
      emitMove ab pl0 a (fun t => subZ etls (addX (etd * td.cut_direction) t))
    else st
  let s5 :=
    if tl ≠ 0 then
      emitMove ab pl0 s4 (fun t => addZ tl (addX (mth * td.cut_direction) t))
    else s4
  if td.end_taper_type = TaperType.texit ∨ td.end_taper_type = TaperType.tboth then
    emitMove ab pl0 s5 (fun t => subZ etls (addX (etd * td.cut_direction) t))
  else s5

/-- the tail of one pass iteration (source lines 472-494): return to rapid
non-synchronized motion, X retract, and for non-final passes the depth-of-cut
update, the feed-hold restore and the Z reposition move. -/
def threadPassTail [LinearOrderedField F] (ab : Bool) (pl0 : PlanData F)
    (td : GcThreadData F) (powf : F → F → F) (position : Vec F) (invDeg : F)
    (fhd0 : Bool) (infeedF : F) (pRem : ℕ) (st : ThreadSt F) : ThreadSt F :=
  let s7 := tmod st (fun s => { s with plRapid := true, plSync := false })
  let s8 := emitMove ab pl0 s7 (setX (position 0))
  if 1 < pRem then
    let s9 := tmod s8 (fun s =>
      { s with
        pass := s.pass + 1
        doc := min (calc_thread_doc powf (s.pass + 1) td.initial_depth invDeg) td.depth
        plFhd := fhd0 })
    emitMove ab pl0 s9
      (setZ (position 2 + (if infeedF ≠ 0 then (td.depth - s9.doc) * infeedF else 0)))
  else
    tmod s8 (fun s => { s with doc := td.depth })

/-- one iteration of the `while(--passes)` loop of `mc_thread`
(source lines 422-495); `pRem` is the decremented `passes` value for this
iteration, `tl`/`etl`/`mth` the precomputed `thread_length`, adjusted
`end_taper_length` and `main_taper_height`, `fhd0` the caller's
`feed_hold_disabled`, `infeedF` the compound-slide factor. -/
def threadPass [LinearOrderedField F] (ab : Bool) (pl0 : PlanData F)
    (td : GcThreadData F) (powf : F → F → F) (position : Vec F)
    (tl etl mth invDeg : F) (fhd0 : Bool) (infeedF : F) (pRem : ℕ)
    (st : ThreadSt F) : ThreadSt F :=
  if st.stopped = true then st
  else
    threadPassTail ab pl0 td powf position invDeg fhd0 infeedF pRem
      (threadPassCuts ab pl0 td tl mth (td.depth * (st.doc / td.depth))
        (etl * (st.doc / td.depth)) st.doc
        (threadPassHead ab pl0 td st))

/-- the pass-count loop of `mc_thread` (source line 395):
`while(calc_thread_doc(++passes, doc, inv_degression) < thread->depth);`.
The C loop diverges when no pass ever reaches the full depth; the embedding
carries that reachability as the hypothesis `h`. -/
def thread_pass_count [LinearOrderedField F] (powf : F → F → F) (td : GcThreadData F)
    (h : ∃ p : ℕ, td.depth ≤ calc_thread_doc powf (p + 1) td.initial_depth
      (1 / td.depth_degression)) : ℕ :=
  Nat.find h + 1

/-- precomputed context of the `mc_thread` pass loop. -/
structure ThreadCtx (F : Type) where
  st1 : ThreadSt F
  tl : F
  etl : F
  mth : F
  invDeg : F
  infeedF : F
  passes : ℕ

/-- the prelude of `mc_thread` (source lines 385-420): pass counting, taper
bookkeeping, planner rapid flag, and the compound-slide entry move.  `tanf`
is the libm tangent, `raddeg` the `RADDEG` conversion macro. -/
def mc_thread_setup [LinearOrderedField F] (powf : F → F → F) (tanf : F → F)
    (raddeg : F) (ab : Bool) (pl0 : PlanData F) (position : Vec F)
    (td : GcThreadData F)
    (h : ∃ p : ℕ, td.depth ≤ calc_thread_doc powf (p + 1) td.initial_depth
      (1 / td.depth_degression)) : ThreadCtx F :=
  let invDeg := 1 / td.depth_degression
  let end_taper_factor : F :=
    if td.end_taper_type = TaperType.tnone then 0
    else if td.end_taper_type = TaperType.tboth then 2 else 1
  let infeedF := tanf (td.infeed_angle * raddeg)
  let passes := thread_pass_count powf td h + td.spring_passes + 1
  let tl0 := td.z_final - position 2
  let etl := if 0 < tl0 then -td.end_taper_length else td.end_taper_length
  let tl := tl0 + etl * end_taper_factor
  let mth :=
    if td.main_taper_height ≠ 0 then
      td.main_taper_height * tl / (tl - etl * end_taper_factor)
    else td.main_taper_height
  let st0 : ThreadSt F :=
    { target := position
      doc := td.initial_depth
      pass := 1
      plRapid := true
      plSync := pl0.condition.spindle.synchronized
      plFhd := pl0.feed_hold_disable
      trace := []
      stopped := false }
  let st1 :=
    if infeedF ≠ 0 then emitMove ab pl0 st0 (addZ (td.depth * infeedF))
    else st0
  ⟨st1, tl, etl, mth, invDeg, infeedF, passes⟩

/-- the pass-loop state after `j` of the `passes − 1` iterations of
`while(--passes)`. -/
def threadStAt [LinearOrderedField F] (powf : F → F → F) (tanf : F → F) (raddeg : F)
    (ab : Bool) (pl0 : PlanData F) (position : Vec F) (td : GcThreadData F)
    (fhd0 : Bool)
    (h : ∃ p : ℕ, td.depth ≤ calc_thread_doc powf (p + 1) td.initial_depth
      (1 / td.depth_degression)) (j : ℕ) : ThreadSt F :=
  let c := mc_thread_setup powf tanf raddeg ab pl0 position td h
  (List.range j).foldl
    (fun st i => threadPass ab pl0 td powf position c.tl c.etl c.mth c.invDeg
      fhd0 c.infeedF (c.passes - 1 - i) st) c.st1

/-- `mc_thread` (source lines 383-496): the final state, whose `trace` field
is the full sequence of `mc_line` and `mc_dwell` calls. -/
def mc_thread [LinearOrderedField F] (powf : F → F → F) (tanf : F → F) (raddeg : F)
    (ab : Bool) (pl0 : PlanData F) (position : Vec F) (td : GcThreadData F)
    (feed_hold_disabled : Bool)
    (h : ∃ p : ℕ, td.depth ≤ calc_thread_doc powf (p + 1) td.initial_depth
      (1 / td.depth_degression)) : ThreadSt F :=
  threadStAt powf tanf raddeg ab pl0 position td feed_hold_disabled h
    ((mc_thread_setup powf tanf raddeg ab pl0 position td h).passes - 1)


/-- a guarded mutation on a live state applies its function. -/
lemma tmod_false {F : Type} (st : ThreadSt F) (f : ThreadSt F → ThreadSt F)
    (hst : st.stopped = false) : tmod st f = f st := by
  unfold tmod
  rw [if_neg (by simp [hst])]

/-- trace and field shape of `emitMove` on a live state. -/
lemma emitMove_shape [LinearOrderedField F] (pl0 : PlanData F) (st : ThreadSt F)
    (f : Vec F → Vec F) (hst : st.stopped = false) :
    (emitMove false pl0 st f).trace
      = st.trace ++ [ThreadEv.line (f st.target)
          (threadPlOf pl0 st.plRapid st.plSync st.plFhd)] ∧
    (emitMove false pl0 st f).stopped = false ∧
    (emitMove false pl0 st f).plRapid = st.plRapid ∧
    (emitMove false pl0 st f).plSync = st.plSync ∧
    (emitMove false pl0 st f).plFhd = st.plFhd ∧
    (emitMove false pl0 st f).doc = st.doc ∧
    (emitMove false pl0 st f).pass = st.pass := by
  unfold emitMove threadPl
  rw [if_neg (by simp [hst])]
  exact ⟨rfl, rfl, rfl, rfl, rfl, rfl, rfl⟩

/-- `st'` extends `st` by cut lines carrying the flags of `st`, all other
observables unchanged. -/
def CutExtends [LinearOrderedField F] (pl0 : PlanData F) (st st' : ThreadSt F) : Prop :=
  ∃ d, st'.trace = st.trace ++ d ∧
    (∀ ev ∈ d, ∃ t, ev = ThreadEv.line t
      (threadPlOf pl0 st.plRapid st.plSync st.plFhd)) ∧
    st'.stopped = false ∧ st'.plRapid = st.plRapid ∧ st'.plSync = st.plSync ∧
    st'.plFhd = st.plFhd ∧ st'.doc = st.doc ∧ st'.pass = st.pass

/-- the stop flag of a cut extension. -/
lemma cutExtends_stopped [LinearOrderedField F] {pl0 : PlanData F}
    {st st' : ThreadSt F} (h : CutExtends pl0 st st') : st'.stopped = false := by
  obtain ⟨d, _, _, hs, _⟩ := h
  exact hs

/-- a live state extends itself. -/
lemma cutExtends_refl [LinearOrderedField F] (pl0 : PlanData F) (st : ThreadSt F)
    (hst : st.stopped = false) : CutExtends pl0 st st :=
  ⟨[], by simp, by simp, hst, rfl, rfl, rfl, rfl, rfl⟩

/-- transitivity of cut extension. -/
lemma cutExtends_trans [LinearOrderedField F] (pl0 : PlanData F)
    (s1 s2 s3 : ThreadSt F) (h12 : CutExtends pl0 s1 s2) (h23 : CutExtends pl0 s2 s3) :
    CutExtends pl0 s1 s3 := by
  obtain ⟨d1, t1, m1, st1, r1, y1, f1, c1, p1⟩ := h12
  obtain ⟨d2, t2, m2, st2, r2, y2, f2, c2, p2⟩ := h23
  refine ⟨d1 ++ d2, ?_, ?_, st2, r2.trans r1, y2.trans y1, f2.trans f1,
    c2.trans c1, p2.trans p1⟩
  · rw [t2, t1, List.append_assoc]
  · intro ev hev
    rcases List.mem_append.1 hev with hev | hev
    · exact m1 ev hev
    · obtain ⟨t, ht⟩ := m2 ev hev
      refine ⟨t, ?_⟩
      rw [ht, r1, y1, f1]

/-- appending one `emitMove` preserves cut extension. -/
lemma cutExtends_emit_of [LinearOrderedField F] (pl0 : PlanData F)
    (st s : ThreadSt F) (f : Vec F → Vec F) (h : CutExtends pl0 st s) :
    CutExtends pl0 st (emitMove false pl0 s f) := by
  refine cutExtends_trans pl0 st s _ h ?_
  obtain ⟨t, hs, r, y, fh, d, p⟩ := emitMove_shape pl0 s f (cutExtends_stopped h)
  refine ⟨[ThreadEv.line (f s.target) (threadPlOf pl0 s.plRapid s.plSync s.plFhd)],
    t, ?_, hs, r, y, fh, d, p⟩
  intro ev hev
  rw [List.mem_singleton] at hev
  exact ⟨f s.target, hev⟩

/-- the cut section of one pass is a cut extension. -/
lemma threadPassCuts_shape [LinearOrderedField F] (pl0 : PlanData F)
    (td : GcThreadData F) (tl mth etd etls doc0 : F) (st : ThreadSt F)
    (hst : st.stopped = false) :
    CutExtends pl0 st (threadPassCuts false pl0 td tl mth etd etls doc0 st) := by
  simp only [threadPassCuts]
  split <;> split <;> split <;>
    repeat
      first
        | exact cutExtends_refl pl0 st hst
        | apply cutExtends_emit_of

/-- trace and field shape of the pass head on a live state. -/
lemma threadPassHead_shape [LinearOrderedField F] (pl0 : PlanData F)
    (td : GcThreadData F) (st : ThreadSt F) (hst : st.stopped = false) :
    ∃ entry,
      (threadPassHead false pl0 td st).trace
        = st.trace ++ entry ++ [ThreadEv.dwell 0.01] ∧
      (td.end_taper_type = TaperType.tnone →
        entry = [ThreadEv.line (addX ((td.peak + st.doc) * td.cut_direction) st.target)
          (threadPlOf pl0 st.plRapid st.plSync st.plFhd)]) ∧
      (td.end_taper_type ≠ TaperType.tnone → entry = []) ∧
      (threadPassHead false pl0 td st).stopped = false ∧
      (threadPassHead false pl0 td st).plRapid = false ∧
      (threadPassHead false pl0 td st).plSync = true ∧
      (threadPassHead false pl0 td st).plFhd = true ∧
      (threadPassHead false pl0 td st).doc = st.doc ∧
      (threadPassHead false pl0 td st).pass = st.pass := by
  by_cases h : td.end_taper_type = TaperType.tnone
  · refine ⟨[ThreadEv.line (addX ((td.peak + st.doc) * td.cut_direction) st.target)
      (threadPlOf pl0 st.plRapid st.plSync st.plFhd)], ?_, fun _ => rfl,
      fun hn => absurd h hn, ?_, ?_, ?_, ?_, ?_, ?_⟩ <;>
      simp [threadPassHead, tmod, emitMove, threadPl, hst, h]
  · refine ⟨[], ?_, fun hy => absurd hy h, fun _ => rfl, ?_, ?_, ?_, ?_, ?_, ?_⟩ <;>
      simp [threadPassHead, tmod, emitMove, threadPl, hst, h]

/-- trace and field shape of the pass tail on a live state. -/
lemma threadPassTail_shape [LinearOrderedField F] (pl0 : PlanData F)
    (td : GcThreadData F) (powf : F → F → F) (position : Vec F) (invDeg : F)
    (fhd0 : Bool) (infeedF : F) (pRem : ℕ) (st : ThreadSt F)
    (hst : st.stopped = false) :
    ∃ tR rest,
      (threadPassTail false pl0 td powf position invDeg fhd0 infeedF pRem st).trace
        = st.trace ++ [ThreadEv.line tR (threadPlOf pl0 true false st.plFhd)] ++ rest ∧
      (1 < pRem → ∃ tZ, rest = [ThreadEv.line tZ (threadPlOf pl0 true false fhd0)]) ∧
      (¬1 < pRem → rest = []) ∧
      (threadPassTail false pl0 td powf position invDeg fhd0 infeedF pRem st).stopped
        = false ∧
      (threadPassTail false pl0 td powf position invDeg fhd0 infeedF pRem st).plRapid
        = true ∧
      (threadPassTail false pl0 td powf position invDeg fhd0 infeedF pRem st).plSync
        = false ∧
      (threadPassTail false pl0 td powf position invDeg fhd0 infeedF pRem st).plFhd
        = (if 1 < pRem then fhd0 else st.plFhd) ∧
      (threadPassTail false pl0 td powf position invDeg fhd0 infeedF pRem st).doc
        = (if 1 < pRem then
            min (calc_thread_doc powf (st.pass + 1) td.initial_depth invDeg) td.depth
           else td.depth) ∧
      (threadPassTail false pl0 td powf position invDeg fhd0 infeedF pRem st).pass
        = (if 1 < pRem then st.pass + 1 else st.pass) := by
  by_cases hp : 1 < pRem
  · refine ⟨setX (position 0) st.target,
      [ThreadEv.line
        (setZ (position 2 +
          (if infeedF ≠ 0 then
            (td.depth - min (calc_thread_doc powf (st.pass + 1) td.initial_depth invDeg)
              td.depth) * infeedF
           else 0)) (setX (position 0) st.target))
        (threadPlOf pl0 true false fhd0)], ?_, fun _ => ⟨_, rfl⟩,
      fun hn => absurd hp hn, ?_, ?_, ?_, ?_, ?_, ?_⟩ <;>
      simp [threadPassTail, tmod, emitMove, threadPl, hst, hp]
  · refine ⟨setX (position 0) st.target, [], ?_, fun hy => absurd hy hp,
      fun _ => rfl, ?_, ?_, ?_, ?_, ?_, ?_⟩ <;>
      simp [threadPassTail, tmod, emitMove, threadPl, hst, hp]

/-- flag, depth-of-cut and pass-number evolution of one non-aborted pass. -/
lemma threadPass_state [LinearOrderedField F] (pl0 : PlanData F) (td : GcThreadData F)
    (powf : F → F → F) (position : Vec F) (tl etl mth invDeg : F) (fhd0 : Bool)
    (infeedF : F) (pRem : ℕ) (st : ThreadSt F) (hst : st.stopped = false) :
    (threadPass false pl0 td powf position tl etl mth invDeg fhd0 infeedF pRem st).stopped
        = false ∧
    (threadPass false pl0 td powf position tl etl mth invDeg fhd0 infeedF pRem st).doc
        = (if 1 < pRem then
            min (calc_thread_doc powf (st.pass + 1) td.initial_depth invDeg) td.depth
           else td.depth) ∧
    (threadPass false pl0 td powf position tl etl mth invDeg fhd0 infeedF pRem st).pass
        = (if 1 < pRem then st.pass + 1 else st.pass) ∧
    (threadPass false pl0 td powf position tl etl mth invDeg fhd0 infeedF pRem st).plRapid
        = true ∧
    (threadPass false pl0 td powf position tl etl mth invDeg fhd0 infeedF pRem st).plSync
        = false ∧
    (threadPass false pl0 td powf position tl etl mth invDeg fhd0 infeedF pRem st).plFhd
        = (if 1 < pRem then fhd0 else true) := by
  unfold threadPass
  rw [if_neg (by simp [hst])]
  obtain ⟨entry, ht, he1, he2, hs, hr, hy, hf, hd, hp⟩ := threadPassHead_shape pl0 td st hst
  obtain ⟨d, _, _, hcs, hcr, hcy, hcf, hcd, hcp⟩ := threadPassCuts_shape pl0 td tl mth
    (td.depth * (st.doc / td.depth)) (etl * (st.doc / td.depth)) st.doc
    (threadPassHead false pl0 td st) hs
  obtain ⟨tR, rest, _, _, _, hts, htr, hty, htf, htd, htp⟩ :=
    threadPassTail_shape pl0 td powf position invDeg fhd0 infeedF pRem _ hcs
  refine ⟨hts, ?_, ?_, htr, hty, ?_⟩
  · rw [htd, hcp, hp]
  · rw [htp, hcp, hp]
  · rw [htf, hcf, hf]


/-- `emitMove` changes only the target, the trace and the stop flag. -/
lemma emitMove_proj [LinearOrderedField F] (pl0 : PlanData F) (st : ThreadSt F)
    (f : Vec F → Vec F) :
    (emitMove false pl0 st f).doc = st.doc ∧
    (emitMove false pl0 st f).pass = st.pass ∧
    (emitMove false pl0 st f).plRapid = st.plRapid ∧
    (emitMove false pl0 st f).plSync = st.plSync ∧
    (emitMove false pl0 st f).plFhd = st.plFhd ∧
    (emitMove false pl0 st f).stopped = st.stopped := by
  unfold emitMove
  split <;> simp_all

/-- the fixed parts of the `mc_thread` prelude. -/
lemma mc_thread_setup_invDeg [LinearOrderedField F] (powf : F → F → F) (tanf : F → F)
    (raddeg : F) (ab : Bool) (pl0 : PlanData F) (position : Vec F) (td : GcThreadData F)
    (h : ∃ p : ℕ, td.depth ≤ calc_thread_doc powf (p + 1) td.initial_depth
      (1 / td.depth_degression)) :
    (mc_thread_setup powf tanf raddeg ab pl0 position td h).invDeg
        = 1 / td.depth_degression ∧
    (mc_thread_setup powf tanf raddeg ab pl0 position td h).passes
        = thread_pass_count powf td h + td.spring_passes + 1 := by
  constructor <;> rfl

/-- the state handed to the first pass. -/
lemma mc_thread_setup_st1 [LinearOrderedField F] (powf : F → F → F) (tanf : F → F)
    (raddeg : F) (pl0 : PlanData F) (position : Vec F) (td : GcThreadData F)
    (h : ∃ p : ℕ, td.depth ≤ calc_thread_doc powf (p + 1) td.initial_depth
      (1 / td.depth_degression)) :
    (mc_thread_setup powf tanf raddeg false pl0 position td h).st1.stopped = false ∧
    (mc_thread_setup powf tanf raddeg false pl0 position td h).st1.doc
        = td.initial_depth ∧
    (mc_thread_setup powf tanf raddeg false pl0 position td h).st1.pass = 1 ∧
    (mc_thread_setup powf tanf raddeg false pl0 position td h).st1.plRapid = true ∧
    (mc_thread_setup powf tanf raddeg false pl0 position td h).st1.plSync
        = pl0.condition.spindle.synchronized ∧
    (mc_thread_setup powf tanf raddeg false pl0 position td h).st1.plFhd
        = pl0.feed_hold_disable := by
  unfold mc_thread_setup
  simp [emitMove]
  split_ifs <;> refine ⟨?_, ?_, ?_, ?_, ?_, ?_⟩ <;> rfl

/-- `threadStAt 0` is the prelude state. -/
lemma threadStAt_zero [LinearOrderedField F] (powf : F → F → F) (tanf : F → F)
    (raddeg : F) (pl0 : PlanData F) (position : Vec F) (td : GcThreadData F)
    (fhd0 : Bool)
    (h : ∃ p : ℕ, td.depth ≤ calc_thread_doc powf (p + 1) td.initial_depth
      (1 / td.depth_degression)) :
    threadStAt powf tanf raddeg false pl0 position td fhd0 h 0
      = (mc_thread_setup powf tanf raddeg false pl0 position td h).st1 := by
  unfold threadStAt
  simp

/-- unfolding one pass-loop iteration. -/
lemma threadStAt_succ [LinearOrderedField F] (powf : F → F → F) (tanf : F → F)
    (raddeg : F) (pl0 : PlanData F) (position : Vec F) (td : GcThreadData F)
    (fhd0 : Bool)
    (h : ∃ p : ℕ, td.depth ≤ calc_thread_doc powf (p + 1) td.initial_depth
      (1 / td.depth_degression)) (j : ℕ) :
    threadStAt powf tanf raddeg false pl0 position td fhd0 h (j + 1)
      = threadPass false pl0 td powf position
          (mc_thread_setup powf tanf raddeg false pl0 position td h).tl
          (mc_thread_setup powf tanf raddeg false pl0 position td h).etl
          (mc_thread_setup powf tanf raddeg false pl0 position td h).mth
          (mc_thread_setup powf tanf raddeg false pl0 position td h).invDeg
          fhd0 (mc_thread_setup powf tanf raddeg false pl0 position td h).infeedF
          ((mc_thread_setup powf tanf raddeg false pl0 position td h).passes - 1 - j)
          (threadStAt powf tanf raddeg false pl0 position td fhd0 h j) := by
  unfold threadStAt
  rw [List.range_succ, List.foldl_append]
  simp

/-- invariant at the head of each pass: after `j` iterations with at least
one more non-final iteration ahead (`j + 1 < passes`), the planner flags are
rapid, non-synchronized, caller's feed-hold, the pass number is `j + 1`, and
the depth of cut is the clamped degression value. -/
lemma threadStAt_inv [LinearOrderedField F] (powf : F → F → F) (tanf : F → F)
    (raddeg : F) (pl0 : PlanData F) (position : Vec F) (td : GcThreadData F)
    (fhd0 : Bool)
    (h : ∃ p : ℕ, td.depth ≤ calc_thread_doc powf (p + 1) td.initial_depth
      (1 / td.depth_degression))
    (hsync : pl0.condition.spindle.synchronized = false)
    (hfhd : pl0.feed_hold_disable = fhd0) :
    ∀ j, j + 1 < (mc_thread_setup powf tanf raddeg false pl0 position td h).passes →
      (threadStAt powf tanf raddeg false pl0 position td fhd0 h j).stopped = false ∧
      (threadStAt powf tanf raddeg false pl0 position td fhd0 h j).plRapid = true ∧
      (threadStAt powf tanf raddeg false pl0 position td fhd0 h j).plSync = false ∧
      (threadStAt powf tanf raddeg false pl0 position td fhd0 h j).plFhd = fhd0 ∧
      (threadStAt powf tanf raddeg false pl0 position td fhd0 h j).pass = j + 1 ∧
      (threadStAt powf tanf raddeg false pl0 position td fhd0 h j).doc
        = (if j = 0 then td.initial_depth
           else min (calc_thread_doc powf (j + 1) td.initial_depth
             (1 / td.depth_degression)) td.depth) := by
  intro j
  induction j with
  | zero =>
    intro _
    rw [threadStAt_zero]
    obtain ⟨a, b, c, d, e, f⟩ := mc_thread_setup_st1 powf tanf raddeg pl0 position td h
    refine ⟨a, d, ?_, ?_, ?_, ?_⟩
    · rw [e, hsync]
    · rw [f, hfhd]
    · simpa using c
    · simpa using b
  | succ m ih =>
    intro hj
    have hj' : m + 1 < (mc_thread_setup powf tanf raddeg false pl0 position td h).passes :=
      by omega
    obtain ⟨a, b, c, d, e, f⟩ := ih hj'
    rw [threadStAt_succ]
    obtain ⟨p1, p2, p3, p4, p5, p6⟩ := threadPass_state pl0 td powf position
      (mc_thread_setup powf tanf raddeg false pl0 position td h).tl
      (mc_thread_setup powf tanf raddeg false pl0 position td h).etl
      (mc_thread_setup powf tanf raddeg false pl0 position td h).mth
      (mc_thread_setup powf tanf raddeg false pl0 position td h).invDeg
      fhd0 (mc_thread_setup powf tanf raddeg false pl0 position td h).infeedF
      ((mc_thread_setup powf tanf raddeg false pl0 position td h).passes - 1 - m)
      (threadStAt powf tanf raddeg false pl0 position td fhd0 h m) a
    have hlt : 1 < (mc_thread_setup powf tanf raddeg false pl0 position td h).passes
        - 1 - m := by omega
    refine ⟨p1, p4, p5, ?_, ?_, ?_⟩
    · rw [p6, if_pos hlt]
    · rw [p3, if_pos hlt, e]
    · rw [p2, if_pos hlt, e,
        (mc_thread_setup_invDeg powf tanf raddeg false pl0 position td h).1]
      simp


/-- the S6 libm power function: the real power. -/
noncomputable def s6powf : ℝ → ℝ → ℝ := fun a b => a ^ b

/-- S6 thread parameters: full depth 1.0, initial depth 0.2, degression 2.0,
2 spring passes (the geometry fields are arbitrary). -/
noncomputable def s6td : GcThreadData ℝ :=
  { z_final := -10, peak := 1 / 2, initial_depth := 1 / 5, depth := 1,
    depth_degression := 2, infeed_angle := 0, spring_passes := 2,
    end_taper_type := TaperType.tnone, end_taper_length := 0,
    main_taper_height := 0, cut_direction := 1 }

/-- a caller planner-data record over `ℝ` for the S6 run. -/
noncomputable def s6pl : PlanData ℝ :=
  { condition := { rapid_motion := false, backlash_motion := false, jog_motion := false,
                   inverse_time := false, spindle := ⟨false, false, false⟩ },
    feed_rate := 100, spindle_rpm := 300, line_number := 1, feed_hold_disable := false }

/-- the zero vector over `ℝ`. -/
noncomputable def zeroVecR : Vec ℝ := fun _ => 0

/-- the S6 depth of cut at pass `p` is `0.2·√p`. -/
lemma s6_calc (p : ℕ) :
    calc_thread_doc s6powf p s6td.initial_depth (1 / s6td.depth_degression)
      = 1 / 5 * Real.sqrt p := by
  show (1 / 5 : ℝ) * (p : ℝ) ^ ((1 : ℝ) / 2) = 1 / 5 * Real.sqrt p
  rw [← Real.sqrt_eq_rpow]

/-- S6 pass 25 reaches the full depth exactly. -/
lemma s6_calc25 :
    calc_thread_doc s6powf 25 s6td.initial_depth (1 / s6td.depth_degression) = 1 := by
  rw [s6_calc]
  rw [show ((25 : ℕ) : ℝ) = 5 ^ 2 by norm_num, Real.sqrt_sq (by norm_num)]
  norm_num

/-- the existence bound of the S6 pass-count loop. -/
lemma s6h : ∃ p : ℕ, s6td.depth ≤ calc_thread_doc s6powf (p + 1) s6td.initial_depth
    (1 / s6td.depth_degression) := by
  refine ⟨24, ?_⟩
  rw [show (24 : ℕ) + 1 = 25 from rfl, s6_calc25]
  norm_num [s6td]

/-- S6 passes below 25 stay below the full depth. -/
lemma s6_calc_lt (q : ℕ) (h2 : q < 25) :
    calc_thread_doc s6powf q s6td.initial_depth (1 / s6td.depth_degression)
      < s6td.depth := by
  rw [s6_calc]
  have hq : (q : ℝ) < 25 := by exact_mod_cast h2
  have hs : Real.sqrt q < 5 := by
    rw [Real.sqrt_lt' (by norm_num : (0 : ℝ) < 5)]
    nlinarith
  have : (1 : ℝ) / 5 * Real.sqrt q < 1 := by nlinarith [Real.sqrt_nonneg (q : ℝ)]
  simpa [s6td] using this

/-- S6 counts 25 cutting passes. -/
lemma s6_count : thread_pass_count s6powf s6td s6h = 25 := by
  unfold thread_pass_count
  have hfind : Nat.find s6h = 24 := by
    rw [Nat.find_eq_iff]
    constructor
    · rw [show (24 : ℕ) + 1 = 25 from rfl, s6_calc25]
      norm_num [s6td]
    · intro m hm
      rw [not_le]
      exact s6_calc_lt (m + 1) (by omega)
  omega

/-- the S6 pass loop runs 28 passes in total (25 cutting + 2 spring + 1). -/
lemma s6_passes :
    (mc_thread_setup s6powf Real.tan (Real.pi / 180) false s6pl zeroVecR s6td
      s6h).passes = 28 := by
  rw [(mc_thread_setup_invDeg s6powf Real.tan (Real.pi / 180) false s6pl zeroVecR
    s6td s6h).2, s6_count]
  rfl

/-- the S6 invariant instance: depth of cut after `j` iterations. -/
lemma s6_doc (j : ℕ) (hj : j + 1 < 28) :
    (threadStAt s6powf Real.tan (Real.pi / 180) false s6pl zeroVecR s6td false
        s6h j).doc
      = (if j = 0 then (1 / 5 : ℝ)
         else min (1 / 5 * Real.sqrt (j + 1)) 1) := by
  have hinv := (threadStAt_inv s6powf Real.tan (Real.pi / 180) s6pl zeroVecR s6td
    false s6h (by simp [s6pl]) (by simp [s6pl]) j (by rw [s6_passes]; omega)).2.2.2.2.2
  rw [hinv]
  by_cases h0 : j = 0
  · simp [h0, s6td]
  · rw [if_neg h0, if_neg h0, s6_calc]
    norm_num [s6td]

/-- C6: `mc_thread` computes the cutting passes as the smallest pass whose
degression depth `initial·pass^(1/degression)` reaches the full depth, adds
the spring passes plus one, and cuts the final (non-spring) pass and every
spring pass at the full depth; scenario S6 (depth 1.0, initial 0.2,
degression 2.0, 2 spring passes) runs 25 cutting passes with depths of cut
0.2, ≈0.283, ≈0.346, 0.4, …, 1.0 and then 2 spring passes at 1.0. -/
theorem mc_thread_pass_doc_spec :
    (∀ (powf : ℝ → ℝ → ℝ) (tanf : ℝ → ℝ) (raddeg : ℝ) (pl0 : PlanData ℝ)
       (position : Vec ℝ) (td : GcThreadData ℝ) (fhd0 : Bool)
       (h : ∃ p : ℕ, td.depth ≤ calc_thread_doc powf (p + 1) td.initial_depth
         (1 / td.depth_degression)),
      (td.depth ≤ calc_thread_doc powf (thread_pass_count powf td h) td.initial_depth
          (1 / td.depth_degression) ∧
       (∀ q, 1 ≤ q → q < thread_pass_count powf td h →
         calc_thread_doc powf q td.initial_depth (1 / td.depth_degression) < td.depth) ∧
       (mc_thread_setup powf tanf raddeg false pl0 position td h).passes
          = thread_pass_count powf td h + td.spring_passes + 1) ∧
      (pl0.condition.spindle.synchronized = false → pl0.feed_hold_disable = fhd0 →
        0 ≤ td.initial_depth →
        (∀ a b : ℕ, a ≤ b →
          powf ((a : ℕ) : ℝ) (1 / td.depth_degression)
            ≤ powf ((b : ℕ) : ℝ) (1 / td.depth_degression)) →
        ∀ j, 2 ≤ j → thread_pass_count powf td h ≤ j →
          j < (mc_thread_setup powf tanf raddeg false pl0 position td h).passes →
          (threadStAt powf tanf raddeg false pl0 position td fhd0 h (j - 1)).doc
            = td.depth)) ∧
    (thread_pass_count s6powf s6td s6h = 25 ∧
     (mc_thread_setup s6powf Real.tan (Real.pi / 180) false s6pl zeroVecR s6td
        s6h).passes = 28 ∧
     (threadStAt s6powf Real.tan (Real.pi / 180) false s6pl zeroVecR s6td false
        s6h 0).doc = 1 / 5 ∧
     |(threadStAt s6powf Real.tan (Real.pi / 180) false s6pl zeroVecR s6td false
        s6h 1).doc - 0.283| ≤ 0.001 ∧
     |(threadStAt s6powf Real.tan (Real.pi / 180) false s6pl zeroVecR s6td false
        s6h 2).doc - 0.346| ≤ 0.001 ∧
     (threadStAt s6powf Real.tan (Real.pi / 180) false s6pl zeroVecR s6td false
        s6h 3).doc = 2 / 5 ∧
     (threadStAt s6powf Real.tan (Real.pi / 180) false s6pl zeroVecR s6td false
        s6h 24).doc = 1 ∧
     (threadStAt s6powf Real.tan (Real.pi / 180) false s6pl zeroVecR s6td false
        s6h 25).doc = 1 ∧
     (threadStAt s6powf Real.tan (Real.pi / 180) false s6pl zeroVecR s6td false
        s6h 26).doc = 1) := by
  constructor
  · intro powf tanf raddeg pl0 position td fhd0 h
    constructor
    · refine ⟨Nat.find_spec h, ?_, ?_⟩
      · intro q hq1 hq2
        unfold thread_pass_count at hq2
        obtain ⟨r, rfl⟩ : ∃ r, q = r + 1 := ⟨q - 1, by omega⟩
        have := Nat.find_min h (m := r) (by omega)
        exact lt_of_not_le this
      · exact (mc_thread_setup_invDeg powf tanf raddeg false pl0 position td h).2
    · intro hsync hfhd hinit hmono j hj2 hjc hjp
      have hj1 : (j - 1) + 1 < (mc_thread_setup powf tanf raddeg false pl0 position
          td h).passes := by omega
      have hinv := (threadStAt_inv powf tanf raddeg pl0 position td fhd0 h hsync hfhd
        (j - 1) hj1).2.2.2.2.2
      rw [hinv, if_neg (by omega : ¬ j - 1 = 0)]
      have hje : j - 1 + 1 = j := by omega
      rw [hje]
      have hcj : td.depth ≤ calc_thread_doc powf j td.initial_depth
          (1 / td.depth_degression) := by
        calc td.depth
            ≤ calc_thread_doc powf (thread_pass_count powf td h) td.initial_depth
                (1 / td.depth_degression) := Nat.find_spec h
          _ ≤ calc_thread_doc powf j td.initial_depth (1 / td.depth_degression) := by
              unfold calc_thread_doc
              exact mul_le_mul_of_nonneg_left (hmono _ _ hjc) hinit
      exact min_eq_right hcj
  · refine ⟨s6_count, s6_passes, ?_, ?_, ?_, ?_, ?_, ?_, ?_⟩
    · rw [s6_doc 0 (by omega)]
      rfl
    · rw [s6_doc 1 (by omega), if_neg (by omega)]
      have hc : ((1 : ℕ) : ℝ) + 1 = 2 := by norm_num
      rw [hc]
      have h2lo : (1.41 : ℝ) < Real.sqrt 2 := by
        rw [Real.lt_sqrt (by norm_num)]
        norm_num
      have h2hi : Real.sqrt 2 < 1.415 := by
        rw [Real.sqrt_lt' (by norm_num)]
        norm_num
      have hm : (1 / 5 : ℝ) * Real.sqrt 2 ≤ 1 := by nlinarith
      rw [min_eq_left hm, abs_le]
      constructor <;> nlinarith
    · rw [s6_doc 2 (by omega), if_neg (by omega)]
      have hc : ((2 : ℕ) : ℝ) + 1 = 3 := by norm_num
      rw [hc]
      have h3lo : (1.73 : ℝ) < Real.sqrt 3 := by
        rw [Real.lt_sqrt (by norm_num)]
        norm_num
      have h3hi : Real.sqrt 3 < 1.7321 := by
        rw [Real.sqrt_lt' (by norm_num)]
        norm_num
      have hm : (1 / 5 : ℝ) * Real.sqrt 3 ≤ 1 := by nlinarith
      rw [min_eq_left hm, abs_le]
      constructor <;> nlinarith
    · rw [s6_doc 3 (by omega), if_neg (by omega)]
      have hc : ((3 : ℕ) : ℝ) + 1 = 2 ^ 2 := by norm_num
      rw [hc, Real.sqrt_sq (by norm_num : (0:ℝ) ≤ 2)]
      norm_num
    · rw [s6_doc 24 (by omega), if_neg (by omega)]
      have hc : ((24 : ℕ) : ℝ) + 1 = 5 ^ 2 := by norm_num
      rw [hc, Real.sqrt_sq (by norm_num : (0:ℝ) ≤ 5)]
      norm_num
    · rw [s6_doc 25 (by omega), if_neg (by omega)]
      refine min_eq_right ?_
      have h26 : (5 : ℝ) ≤ Real.sqrt (((25 : ℕ) : ℝ) + 1) := by
        rw [Real.le_sqrt (by norm_num) (by norm_num)]
        norm_num
      generalize Real.sqrt (((25 : ℕ) : ℝ) + 1) = y at h26 ⊢
      linarith
    · rw [s6_doc 26 (by omega), if_neg (by omega)]
      refine min_eq_right ?_
      have h27 : (5 : ℝ) ≤ Real.sqrt (((26 : ℕ) : ℝ) + 1) := by
        rw [Real.le_sqrt (by norm_num) (by norm_num)]
        norm_num
      generalize Real.sqrt (((26 : ℕ) : ℝ) + 1) = y at h27 ⊢
      linarith


/-- the S6 power function is monotone in the pass number. -/
lemma s6_mono : ∀ a b : ℕ, a ≤ b →
    s6powf ((a : ℕ) : ℝ) (1 / s6td.depth_degression)
      ≤ s6powf ((b : ℕ) : ℝ) (1 / s6td.depth_degression) := by
  intro a b hab
  show ((a : ℕ) : ℝ) ^ ((1 : ℝ) / 2) ≤ ((b : ℕ) : ℝ) ^ ((1 : ℝ) / 2)
  exact Real.rpow_le_rpow (by positivity) (by exact_mod_cast hab) (by norm_num)

/-- witness: the pass-count/full-depth theorem applied at the S6 instance
(final cutting pass 25 runs at the full depth). -/
theorem mc_thread_pass_doc_spec_witness :
    (threadStAt s6powf Real.tan (Real.pi / 180) false s6pl zeroVecR s6td false
        s6h (25 - 1)).doc = s6td.depth ∧
    s6td.depth ≤ calc_thread_doc s6powf (thread_pass_count s6powf s6td s6h)
      s6td.initial_depth (1 / s6td.depth_degression) :=
  ⟨(mc_thread_pass_doc_spec.1 s6powf Real.tan (Real.pi / 180) s6pl zeroVecR s6td
      false s6h).2 (by simp [s6pl]) (by simp [s6pl]) (by norm_num [s6td])
      s6_mono 25 (by norm_num) (le_of_eq s6_count) (by rw [s6_passes]; norm_num),
   (mc_thread_pass_doc_spec.1 s6powf Real.tan (Real.pi / 180) s6pl zeroVecR s6td
      false s6h).1.1⟩


/-- C7 amended: each pass of a non-aborted `mc_thread` run (caller planner
data non-synchronized, caller feed-hold preference `fhd0`) traces as entry
part, latching dwell, cut segments, X retract, optional reposition; every
cut segment carries `synchronized = On`, `feed_hold_disable = On` and no
rapid flag; the retract that immediately follows the cut is rapid and
non-synchronized but still feed-hold-disabled; the caller's feed-hold
preference returns only with the reposition move of non-final passes (and
after the final pass the retract leaves it disabled); a rapid entry move
exists precisely when no end taper is configured — with a taper the entry
offset move is one of the synchronized segments. -/
theorem mc_thread_sync_bracket_spec {F : Type} [LinearOrderedField F]
    (powf : F → F → F) (tanf : F → F) (raddeg : F) (pl0 : PlanData F)
    (position : Vec F) (td : GcThreadData F) (fhd0 : Bool)
    (h : ∃ p : ℕ, td.depth ≤ calc_thread_doc powf (p + 1) td.initial_depth
      (1 / td.depth_degression))
    (hsync : pl0.condition.spindle.synchronized = false)
    (hfhd : pl0.feed_hold_disable = fhd0) (j : ℕ) (hj1 : 1 ≤ j)
    (hj2 : j ≤ (mc_thread_setup powf tanf raddeg false pl0 position td h).passes - 1) :
    ∃ entry cuts tR rest,
      (threadStAt powf tanf raddeg false pl0 position td fhd0 h j).trace
        = (threadStAt powf tanf raddeg false pl0 position td fhd0 h (j - 1)).trace
          ++ entry ++ [ThreadEv.dwell 0.01] ++ cuts
          ++ [ThreadEv.line tR (threadPlOf pl0 true false true)] ++ rest ∧
      (td.end_taper_type = TaperType.tnone →
        ∃ tE, entry = [ThreadEv.line tE (threadPlOf pl0 true false fhd0)]) ∧
      (td.end_taper_type ≠ TaperType.tnone → entry = []) ∧
      (∀ ev ∈ cuts, ∃ t, ev = ThreadEv.line t (threadPlOf pl0 false true true)) ∧
      (j < (mc_thread_setup powf tanf raddeg false pl0 position td h).passes - 1 →
        ∃ tZ, rest = [ThreadEv.line tZ (threadPlOf pl0 true false fhd0)]) ∧
      (j = (mc_thread_setup powf tanf raddeg false pl0 position td h).passes - 1 →
        rest = []) := by
  obtain ⟨m, rfl⟩ : ∃ m, j = m + 1 := ⟨j - 1, by omega⟩
  have hpass2 : 2 ≤ (mc_thread_setup powf tanf raddeg false pl0 position td h).passes := by
    rw [(mc_thread_setup_invDeg powf tanf raddeg false pl0 position td h).2]
    unfold thread_pass_count
    omega
  obtain ⟨ist, irap, isyn, ifhd, ipass, idoc⟩ :=
    threadStAt_inv powf tanf raddeg pl0 position td fhd0 h hsync hfhd m (by omega)
  rw [threadStAt_succ]
  unfold threadPass
  rw [if_neg (by simp [ist])]
  obtain ⟨entry, ht, he1, he2, hs, hr, hy, hf, hd, hp⟩ := threadPassHead_shape pl0 td
    (threadStAt powf tanf raddeg false pl0 position td fhd0 h m) ist
  obtain ⟨d, hct, hcm, hcs, hcr, hcy, hcf, hcd, hcp⟩ := threadPassCuts_shape pl0 td
    (mc_thread_setup powf tanf raddeg false pl0 position td h).tl
    (mc_thread_setup powf tanf raddeg false pl0 position td h).mth
    (td.depth * ((threadStAt powf tanf raddeg false pl0 position td fhd0 h m).doc / td.depth))
    ((mc_thread_setup powf tanf raddeg false pl0 position td h).etl *
      ((threadStAt powf tanf raddeg false pl0 position td fhd0 h m).doc / td.depth))
    (threadStAt powf tanf raddeg false pl0 position td fhd0 h m).doc
    (threadPassHead false pl0 td
      (threadStAt powf tanf raddeg false pl0 position td fhd0 h m)) hs
  obtain ⟨tR, rest, htt, htr, hty, _, _, _, _, _, _⟩ :=
    threadPassTail_shape pl0 td powf position
      (mc_thread_setup powf tanf raddeg false pl0 position td h).invDeg fhd0
      (mc_thread_setup powf tanf raddeg false pl0 position td h).infeedF
      ((mc_thread_setup powf tanf raddeg false pl0 position td h).passes - 1 - m) _ hcs
  rw [hcf, hf] at htt
  rw [hct, ht] at htt
  rw [irap, isyn, ifhd] at he1
  rw [hr, hy, hf] at hcm
  refine ⟨entry, d, tR, rest, ?_, fun hn => ⟨_, he1 hn⟩, he2, hcm, ?_, ?_⟩
  · rw [htt, Nat.add_sub_cancel]
  · intro hlt
    exact htr (by omega)
  · intro heq
    exact hty (by omega)

/-- counterexample thread parameters over `ℚ`: depth 1, initial depth 1,
degression 1, no taper, no infeed angle, no spring passes. -/
def cexTd : GcThreadData ℚ :=
  { z_final := 1, peak := 0, initial_depth := 1, depth := 1, depth_degression := 1,
    infeed_angle := 0, spring_passes := 0, end_taper_type := TaperType.tnone,
    end_taper_length := 0, main_taper_height := 0, cut_direction := 1 }

/-- the pass-count hypothesis holds for the counterexample inputs with the
constant power function. -/
lemma cexThreadH : ∃ p : ℕ, cexTd.depth ≤ calc_thread_doc (fun _ _ => (1 : ℚ)) (p + 1)
    cexTd.initial_depth (1 / cexTd.depth_degression) :=
  ⟨0, by norm_num [calc_thread_doc, cexTd]⟩

/-- the first pass already reaches the full depth. -/
lemma cex_find : Nat.find cexThreadH = 0 := by
  rw [Nat.find_eq_zero]
  norm_num [calc_thread_doc, cexTd]

/-- the counterexample run has two passes. -/
lemma cex_passes : (mc_thread_setup (fun _ _ => (1 : ℚ)) (fun _ => 0) 1 false samplePl
    zeroVecQ cexTd cexThreadH).passes = 2 := by
  rw [(mc_thread_setup_invDeg (fun _ _ => (1 : ℚ)) (fun _ => 0) 1 false samplePl
    zeroVecQ cexTd cexThreadH).2]
  unfold thread_pass_count
  rw [cex_find]
  rfl

/-- the planner flags `(synchronized, feed_hold_disable)` of a trace event,
`none` for a dwell. -/
def evSyncFhd {F : Type} : ThreadEv F → Option (Bool × Bool)
  | ThreadEv.line _ pl => some (pl.condition.spindle.synchronized, pl.feed_hold_disable)
  | ThreadEv.dwell _ => none

/-- C7 counterexample: a single-pass `mc_thread` run (over `ℚ`, constant
power function, zero infeed angle) whose caller has `feed_hold_disable =
Off`. The trace is rapid entry, dwell, synchronized cut, rapid retract; the
retract — the move emitted immediately after `synchronized` is switched Off
— still carries `feed_hold_disable = On`, so the feed-hold override does NOT
mirror the sync bracket: it is not restored to the caller's value when sync
ends (with no further pass it is never restored at all). -/
theorem mc_thread_feed_hold_cex :
    samplePl.feed_hold_disable = false ∧
    List.map evSyncFhd (mc_thread (fun _ _ => (1 : ℚ)) (fun _ => 0) 1 false samplePl
        zeroVecQ cexTd false cexThreadH).trace
      = [some (false, false), none, some (true, true), some (false, true)] := by
  have hA : (TaperType.tnone = TaperType.tentry ∨ TaperType.tnone = TaperType.tboth)
      = False := by simp
  have hB : (TaperType.tnone = TaperType.texit ∨ TaperType.tnone = TaperType.tboth)
      = False := by simp
  refine ⟨rfl, ?_⟩
  rw [mc_thread, cex_passes]
  norm_num [threadStAt, mc_thread_setup, thread_pass_count, cex_find, List.range,
    List.range.loop, threadPass, threadPassHead, threadPassCuts, threadPassTail,
    emitMove, tmod, threadPl, threadPlOf, cexTd, samplePl, zeroVecQ, calc_thread_doc,
    evSyncFhd, hA, hB]

/-- witness: the amended per-pass bracket theorem applied at the concrete
`ℚ` run of the counterexample inputs, pass `j = 1` (the final pass). -/
theorem mc_thread_sync_bracket_spec_witness :
    samplePl.condition.spindle.synchronized = false ∧
    samplePl.feed_hold_disable = false ∧
    (1 : ℕ) ≤ (mc_thread_setup (fun _ _ => (1 : ℚ)) (fun _ => 0) 1 false samplePl
      zeroVecQ cexTd cexThreadH).passes - 1 ∧
    (∃ entry cuts tR rest,
      (threadStAt (fun _ _ => (1 : ℚ)) (fun _ => 0) 1 false samplePl zeroVecQ cexTd
          false cexThreadH 1).trace
        = (threadStAt (fun _ _ => (1 : ℚ)) (fun _ => 0) 1 false samplePl zeroVecQ cexTd
            false cexThreadH 0).trace
          ++ entry ++ [ThreadEv.dwell 0.01] ++ cuts
          ++ [ThreadEv.line tR (threadPlOf samplePl true false true)] ++ rest ∧
      (cexTd.end_taper_type = TaperType.tnone →
        ∃ tE, entry = [ThreadEv.line tE (threadPlOf samplePl true false false)]) ∧
      (cexTd.end_taper_type ≠ TaperType.tnone → entry = []) ∧
      (∀ ev ∈ cuts, ∃ t, ev = ThreadEv.line t (threadPlOf samplePl false true true)) ∧
      ((1 : ℕ) < (mc_thread_setup (fun _ _ => (1 : ℚ)) (fun _ => 0) 1 false samplePl
          zeroVecQ cexTd cexThreadH).passes - 1 →
        ∃ tZ, rest = [ThreadEv.line tZ (threadPlOf samplePl true false false)]) ∧
      ((1 : ℕ) = (mc_thread_setup (fun _ _ => (1 : ℚ)) (fun _ => 0) 1 false samplePl
          zeroVecQ cexTd cexThreadH).passes - 1 → rest = [])) := by
  refine ⟨rfl, rfl, ?_, ?_⟩
  · rw [cex_passes]
  · have h := mc_thread_sync_bracket_spec (fun _ _ => (1 : ℚ)) (fun _ => 0) 1 samplePl
      zeroVecQ cexTd false cexThreadH rfl rfl 1 (le_refl 1) (by rw [cex_passes])
    simpa using h

end Grbl
